import Mathlib

/-!
Shallow embedding of the minimal fungible-token program (token_mvp):
the binary record codec (state.rs), the instruction codec (instruction.rs),
and the instruction handlers (processor.rs), with theorems checking the
specification's claims against them.

Machine integers are modelled as `Nat` with explicit `2 ^ 64` bounds where
u64 overflow matters; bytes are `Fin 256`; fallible Rust functions return
`Except ProgramError`.
-/

/-- A byte of account or instruction data (u8). -/
abbrev Byte := Fin 256

/-- A public key (solana_pubkey::Pubkey), 32 bytes. -/
abbrev Pubkey := List Byte

/-- Little-endian value of a byte list (u64::from_le_bytes and friends). -/
def fromLeBytes : List Byte → Nat
  | [] => 0
  | b :: rest => b.val + 256 * fromLeBytes rest

/-- Little-endian encoding of a value into a fixed number of bytes (to_le_bytes). -/
def toLeBytes : Nat → Nat → List Byte
  | 0, _ => []
  | k + 1, n => ⟨n % 256, by omega⟩ :: toLeBytes k (n / 256)

/-- The len-byte slice of a buffer starting at off (array_ref![src, off, len]). -/
def seg (l : List Byte) (off len : Nat) : List Byte := (l.drop off).take len

/-- A bool stored as its byte (bool as u8). -/
def boolByte (b : Bool) : Byte := if b then 1 else 0

/-- u64::checked_sub. -/
def checked_sub (a b : Nat) : Option Nat := if b ≤ a then some (a - b) else none

/-- u64::checked_add: none when the sum would not fit a u64. -/
def checked_add (a b : Nat) : Option Nat := if a + b < 2 ^ 64 then some (a + b) else none

/-- Errors of the token program (error.rs TokenError). -/
inductive TokenError
  | AlreadyInitialized
  | NotInitialized
  | InsufficientFunds
  | InvalidMint
  | MintMismatch
  | InvalidOwner
  | Overflow
  | NotRentExempt
  | InvalidInstruction
  | InvalidState
  | NonNativeNotSupported
  | AccountFrozen
  | MintCannotFreeze
  deriving DecidableEq

/-- Host-level error type (solana_program_error::ProgramError), restricted to the
variants this program's paths can produce; TokenError embeds via Custom (error.rs). -/
inductive ProgramError
  | Custom (e : TokenError)
  | InvalidAccountData
  | IncorrectProgramId
  | UninitializedAccount
  deriving DecidableEq

instance exceptDecEq {ε α : Type} [DecidableEq ε] [DecidableEq α] :
    DecidableEq (Except ε α) := fun a b =>
  match a, b with
  | .error e, .error f =>
    if h : e = f then .isTrue (by rw [h]) else .isFalse (by simp [h])
  | .error _, .ok _ => .isFalse (by simp)
  | .ok _, .error _ => .isFalse (by simp)
  | .ok x, .ok y =>
    if h : x = y then .isTrue (by rw [h]) else .isFalse (by simp [h])

/-- Mint record (state.rs). -/
structure Mint where
  mint_authority : Option Pubkey
  supply : Nat
  decimals : Byte
  is_initialized : Bool
  freeze_authority : Option Pubkey
  deriving DecidableEq

/-- Account record (state.rs). The is_frozen field is Modelled from the spec:
processor.rs and the tests read and write account.is_frozen, but the struct in
state.rs omits it; the spec's data model (§3) lists `is_frozen: bool` on the
Account record. -/
structure Account where
  mint : Pubkey
  owner : Pubkey
  amount : Nat
  is_initialized : Bool
  is_native : Option Nat
  delegate : Option Pubkey
  delegated_amount : Nat
  is_frozen : Bool
  deriving DecidableEq

/-- The u64/[u8; 32] typing constraints Rust imposes on an optional key. -/
def optKeyValid : Option Pubkey → Prop
  | some k => k.length = 32
  | none => True

instance : (o : Option Pubkey) → Decidable (optKeyValid o)
  | some k => inferInstanceAs (Decidable (k.length = 32))
  | none => inferInstanceAs (Decidable True)

/-- The u64 typing constraint on an optional amount. -/
def optU64Valid : Option Nat → Prop
  | some v => v < 2 ^ 64
  | none => True

instance : (o : Option Nat) → Decidable (optU64Valid o)
  | some v => inferInstanceAs (Decidable (v < 2 ^ 64))
  | none => inferInstanceAs (Decidable True)

/-- The typing constraints Rust's Mint struct imposes (u64 supply, 32-byte keys). -/
def Mint.Valid (m : Mint) : Prop :=
  optKeyValid m.mint_authority ∧ m.supply < 2 ^ 64 ∧ optKeyValid m.freeze_authority

instance (m : Mint) : Decidable m.Valid := by unfold Mint.Valid; infer_instance

/-- The typing constraints Rust's Account struct imposes. -/
def Account.Valid (a : Account) : Prop :=
  a.mint.length = 32 ∧ a.owner.length = 32 ∧ a.amount < 2 ^ 64 ∧
  optU64Valid a.is_native ∧ optKeyValid a.delegate ∧ a.delegated_amount < 2 ^ 64

instance (a : Account) : Decidable a.Valid := by unfold Account.Valid; infer_instance

/-- pack_coption_key (state.rs): 4-byte tag then the 32-byte key; for None only the
tag is written, so the previous 32 body bytes are kept (the Rust leaves dst's body
untouched in the None arm). -/
def pack_coption_key (src : Option Pubkey) (body : List Byte) : List Byte :=
  match src with
  | some key => 1 :: 0 :: 0 :: 0 :: key
  | none => 0 :: 0 :: 0 :: 0 :: body

/-- unpack_coption_key (state.rs): tag [0,0,0,0] is None, [1,0,0,0] is Some key,
anything else is InvalidAccountData. -/
def unpack_coption_key (src : List Byte) : Except ProgramError (Option Pubkey) :=
  if seg src 0 4 = [0, 0, 0, 0] then .ok none
  else if seg src 0 4 = [1, 0, 0, 0] then .ok (some (seg src 4 32))
  else .error .InvalidAccountData

/-- pack_coption_u64 (state.rs): tag, 8 value bytes, 24 zero bytes; the None arm
zeroes the whole body. -/
def pack_coption_u64 (src : Option Nat) : List Byte :=
  match src with
  | some v => 1 :: 0 :: 0 :: 0 :: (toLeBytes 8 v ++ List.replicate 24 0)
  | none => 0 :: 0 :: 0 :: 0 :: List.replicate 32 0

/-- unpack_coption_u64 (state.rs): reads the tag and the first 8 body bytes. -/
def unpack_coption_u64 (src : List Byte) : Except ProgramError (Option Nat) :=
  if seg src 0 4 = [0, 0, 0, 0] then .ok none
  else if seg src 0 4 = [1, 0, 0, 0] then .ok (some (fromLeBytes (seg src 4 8)))
  else .error .InvalidAccountData

/-- The is_initialized / is_frozen flag byte: 0 is false, 1 is true, anything else
InvalidAccountData (the inline match both record decoders use). -/
def parse_bool_byte (b : Byte) : Except ProgramError Bool :=
  if b = 0 then .ok false
  else if b = 1 then .ok true
  else .error .InvalidAccountData

/-- Mint::LEN (state.rs). -/
def Mint.LEN : Nat := 82

/-- Mint::pack_into_slice (state.rs): segments 36 | 8 | 1 | 1 | 36 over the 82-byte
buffer dst. -/
def Mint.pack_into_slice (m : Mint) (dst : List Byte) : List Byte :=
  pack_coption_key m.mint_authority (seg dst 4 32)
    ++ toLeBytes 8 m.supply
    ++ [m.decimals]
    ++ [boolByte m.is_initialized]
    ++ pack_coption_key m.freeze_authority (seg dst 50 32)

/-- Mint::unpack_from_slice (state.rs): exact length 82, then the five segments in
order; the is_initialized byte must be 0 or 1. -/
def Mint.unpack_from_slice (src : List Byte) : Except ProgramError Mint :=
  if src.length = Mint.LEN then
    match unpack_coption_key (seg src 0 36) with
    | .error e => .error e
    | .ok mint_authority =>
      let supply := fromLeBytes (seg src 36 8)
      let decimals := (seg src 44 1).headD 0
      let ib := (seg src 45 1).headD 0
      match parse_bool_byte ib with
      | .error e => .error e
      | .ok is_initialized =>
        match unpack_coption_key (seg src 46 36) with
        | .error e => .error e
        | .ok freeze_authority =>
          .ok { mint_authority, supply, decimals, is_initialized, freeze_authority }
  else .error .InvalidAccountData

/-- Account::LEN (state.rs): 181 bytes; the fields written by pack occupy 0..153. -/
def Account.LEN : Nat := 181

/-- Account::pack_into_slice (state.rs): mint 32 | owner 32 | amount 8 |
is_initialized 1 | is_native 36 | delegate 36 | delegated_amount 8 at 0..153.
Byte 153 holds is_frozen — Modelled from the spec: state.rs never persists
is_frozen (the struct there lacks the field) although processor and tests
round-trip it through pack/unpack, so the first of the layout's 28 spare bytes
carries it; bytes 154..181 of dst stay untouched, as in the Rust. -/
def Account.pack_into_slice (a : Account) (dst : List Byte) : List Byte :=
  a.mint ++ a.owner ++ toLeBytes 8 a.amount ++ [boolByte a.is_initialized]
    ++ pack_coption_u64 a.is_native
    ++ pack_coption_key a.delegate (seg dst 113 32)
    ++ toLeBytes 8 a.delegated_amount
    ++ [boolByte a.is_frozen]
    ++ seg dst 154 27

/-- Account::unpack_from_slice (state.rs): exact length 181, fields in order; the
is_initialized byte must be 0 or 1; the is_frozen byte at 153 is Modelled from the
spec on the same convention. -/
def Account.unpack_from_slice (src : List Byte) : Except ProgramError Account :=
  if src.length = Account.LEN then
    let mint := seg src 0 32
    let owner := seg src 32 32
    let amount := fromLeBytes (seg src 64 8)
    let ib := (seg src 72 1).headD 0
    match parse_bool_byte ib with
    | .error e => .error e
    | .ok is_initialized =>
      match unpack_coption_u64 (seg src 73 36) with
      | .error e => .error e
      | .ok is_native =>
        match unpack_coption_key (seg src 109 36) with
        | .error e => .error e
        | .ok delegate =>
          let delegated_amount := fromLeBytes (seg src 145 8)
          let fb := (seg src 153 1).headD 0
          match parse_bool_byte fb with
          | .error e => .error e
          | .ok is_frozen =>
            .ok { mint, owner, amount, is_initialized, is_native, delegate,
                  delegated_amount, is_frozen }
  else .error .InvalidAccountData

/-- Pack::unpack_unchecked for Mint (solana_program_pack; the length pre-check
repeats the one inside unpack_from_slice). -/
def Mint.unpack_unchecked (src : List Byte) : Except ProgramError Mint :=
  if src.length = Mint.LEN then Mint.unpack_from_slice src else .error .InvalidAccountData

/-- Pack::unpack for Mint: unpack_unchecked plus the IsInitialized gate. -/
def Mint.unpack (src : List Byte) : Except ProgramError Mint :=
  match Mint.unpack_unchecked src with
  | .error e => .error e
  | .ok m => if m.is_initialized then .ok m else .error .UninitializedAccount

/-- Pack::pack for Mint: exact-length check, then pack_into_slice. -/
def Mint.pack (m : Mint) (dst : List Byte) : Except ProgramError (List Byte) :=
  if dst.length = Mint.LEN then .ok (Mint.pack_into_slice m dst)
  else .error .InvalidAccountData

/-- Pack::unpack_unchecked for Account. -/
def Account.unpack_unchecked (src : List Byte) : Except ProgramError Account :=
  if src.length = Account.LEN then Account.unpack_from_slice src
  else .error .InvalidAccountData

/-- Pack::unpack for Account: unpack_unchecked plus the IsInitialized gate. -/
def Account.unpack (src : List Byte) : Except ProgramError Account :=
  match Account.unpack_unchecked src with
  | .error e => .error e
  | .ok a => if a.is_initialized then .ok a else .error .UninitializedAccount

/-- Pack::pack for Account. -/
def Account.pack (a : Account) (dst : List Byte) : Except ProgramError (List Byte) :=
  if dst.length = Account.LEN then .ok (Account.pack_into_slice a dst)
  else .error .InvalidAccountData

/-- AuthorityType (instruction.rs). -/
inductive AuthorityType
  | MintTokens
  | FreezeAccount
  | AccountOwner
  | CloseAccount
  deriving DecidableEq

/-- AuthorityType::from_u8 (instruction.rs). -/
def AuthorityType.from_u8 (value : Byte) : Except ProgramError AuthorityType :=
  if value = 0 then .ok .MintTokens
  else if value = 1 then .ok .FreezeAccount
  else if value = 2 then .ok .AccountOwner
  else if value = 3 then .ok .CloseAccount
  else .error (.Custom .InvalidInstruction)

/-- TokenInstruction (instruction.rs). -/
inductive TokenInstruction
  | InitializeMint (decimals : Byte) (mint_authority : Pubkey)
      (freeze_authority : Option Pubkey)
  | InitializeAccount
  | Transfer (amount : Nat)
  | TransferChecked (amount : Nat) (decimals : Byte)
  | MintTo (amount : Nat)
  | Burn (amount : Nat)
  | SyncNative
  | Approve (amount : Nat)
  | CloseAccount
  | FreezeAccount
  | ThawAccount
  | Revoke
  | SetAuthority (authority_type : AuthorityType) (new_authority : Option Pubkey)
  deriving DecidableEq

/-- TokenInstruction::unpack_pubkey (instruction.rs): 32 bytes or InvalidInstruction. -/
def TokenInstruction.unpack_pubkey (input : List Byte) :
    Except ProgramError (Pubkey × List Byte) :=
  if 32 ≤ input.length then .ok (input.take 32, input.drop 32)
  else .error (.Custom .InvalidInstruction)

/-- TokenInstruction::unpack_pubkey_option (instruction.rs): leading 0 is None,
leading 1 followed by at least 32 bytes is Some, anything else InvalidInstruction. -/
def TokenInstruction.unpack_pubkey_option (input : List Byte) :
    Except ProgramError (Option Pubkey × List Byte) :=
  match input with
  | [] => .error (.Custom .InvalidInstruction)
  | b :: rest =>
    if b = 0 then .ok (none, rest)
    else if b = 1 ∧ 32 ≤ rest.length then .ok (some (rest.take 32), rest.drop 32)
    else .error (.Custom .InvalidInstruction)

/-- The amount operand: rest.get(..8) read as a little-endian u64, else
InvalidInstruction (the inline pattern every amount-carrying arm uses). -/
def parse_u64 (rest : List Byte) : Except ProgramError Nat :=
  if 8 ≤ rest.length then .ok (fromLeBytes (rest.take 8))
  else .error (.Custom .InvalidInstruction)

/-- TokenInstruction::unpack (instruction.rs), with the arms in source order.
The source matches tag 12 twice — first to TransferChecked, later to ThawAccount —
so the second arm is unreachable, exactly as in the Rust match. -/
def TokenInstruction.unpack : List Byte → Except ProgramError TokenInstruction
  | [] => .error (.Custom .InvalidInstruction)
  | tag :: rest =>
    if tag = 0 then
      match rest with
      | [] => .error (.Custom .InvalidInstruction)
      | decimals :: rest1 =>
        match TokenInstruction.unpack_pubkey rest1 with
        | .error e => .error e
        | .ok (mint_authority, rest2) =>
          match TokenInstruction.unpack_pubkey_option rest2 with
          | .error e => .error e
          | .ok (freeze_authority, _) =>
            .ok (.InitializeMint decimals mint_authority freeze_authority)
    else if tag = 1 then .ok .InitializeAccount
    else if tag = 2 then
      match parse_u64 rest with
      | .error e => .error e
      | .ok amount => .ok (.Approve amount)
    else if tag = 3 then
      match parse_u64 rest with
      | .error e => .error e
      | .ok amount => .ok (.Transfer amount)
    else if tag = 12 then
      match parse_u64 rest with
      | .error e => .error e
      | .ok amount =>
        match rest.drop 8 with
        | [] => .error (.Custom .InvalidInstruction)
        | decimals :: _ => .ok (.TransferChecked amount decimals)
    else if tag = 7 then
      match parse_u64 rest with
      | .error e => .error e
      | .ok amount => .ok (.MintTo amount)
    else if tag = 8 then
      match parse_u64 rest with
      | .error e => .error e
      | .ok amount => .ok (.Burn amount)
    else if tag = 9 then .ok .SyncNative
    else if tag = 10 then .ok .CloseAccount
    else if tag = 11 then .ok .FreezeAccount
    else if tag = 12 then .ok .ThawAccount
    else if tag = 5 then .ok .Revoke
    else if tag = 6 then
      match rest with
      | [] => .error (.Custom .InvalidInstruction)
      | authority_type_byte :: rest1 =>
        match AuthorityType.from_u8 authority_type_byte with
        | .error e => .error e
        | .ok authority_type =>
          match TokenInstruction.unpack_pubkey_option rest1 with
          | .error e => .error e
          | .ok (new_authority, _) => .ok (.SetAuthority authority_type new_authority)
    else .error (.Custom .InvalidInstruction)

/-- Whether a decode result is a ThawAccount instruction. -/
def isThawResult : Except ProgramError TokenInstruction → Bool
  | .ok .ThawAccount => true
  | _ => false

/-- The view of one account the host hands a handler (solana_account_info::AccountInfo):
its address, lamport balance, data buffer, storage owner and the signer/writable flags. -/
structure AccountInfo where
  key : Pubkey
  lamports : Nat
  data : List Byte
  owner : Pubkey
  is_signer : Bool
  is_writable : Bool
  deriving DecidableEq

/-- id() (lib.rs): the program id TokenkegQfeZyiNwAJbNbGKPFXCWuBvf9Ss623VQ5DA,
base58-decoded to its 32 bytes. -/
def tokenProgramId : Pubkey :=
  [6, 221, 246, 225, 215, 101, 161, 147, 217, 203, 225, 70, 206, 235, 121, 172,
   28, 180, 133, 237, 95, 91, 55, 145, 58, 140, 245, 133, 126, 255, 0, 169]

/-- check_program_account (lib.rs): the account's storage owner must be the token
program, else IncorrectProgramId. -/
def check_program_account (info : AccountInfo) : Except ProgramError Unit :=
  if info.owner ≠ tokenProgramId then .error .IncorrectProgramId else .ok ()

/-- Processor::process_transfer (processor.rs). Accounts: source, destination,
authority. On success the returned pair carries the two accounts with their
repacked data buffers; every error path returns before any buffer is written,
as in the Rust, where both Account::pack calls come last. -/
def process_transfer (source destination authority : AccountInfo) (amount : Nat) :
    Except ProgramError (AccountInfo × AccountInfo) :=
  match check_program_account source with
  | .error e => .error e
  | .ok _ =>
  match check_program_account destination with
  | .error e => .error e
  | .ok _ =>
  if ¬ source.is_writable then .error (.Custom .InvalidOwner)
  else if ¬ destination.is_writable then .error (.Custom .InvalidOwner)
  else
  match Account.unpack source.data with
  | .error e => .error e
  | .ok source_account =>
  if ¬ source_account.is_initialized then .error (.Custom .NotInitialized)
  else if source_account.is_frozen then .error (.Custom .AccountFrozen)
  else
  match Account.unpack destination.data with
  | .error e => .error e
  | .ok destination_account =>
  if ¬ destination_account.is_initialized then .error (.Custom .NotInitialized)
  else if destination_account.is_frozen then .error (.Custom .AccountFrozen)
  else if source_account.mint ≠ destination_account.mint then
    .error (.Custom .MintMismatch)
  else
  -- authority: delegate when the stored delegate equals the supplied key, else owner
  match (match source_account.delegate with
    | some d =>
      if d = authority.key then
        if ¬ authority.is_signer then .error (.Custom .InvalidOwner)
        else if source_account.delegated_amount < amount then
          .error (.Custom .InsufficientFunds)
        else if ¬ (source.key = destination.key) then
          match checked_sub source_account.delegated_amount amount with
          | none => .error (.Custom .Overflow)
          | some da =>
            .ok { source_account with
                  delegated_amount := da,
                  delegate := if da = 0 then none else source_account.delegate }
        else .ok source_account
      else
        if source_account.owner ≠ authority.key then .error (.Custom .InvalidOwner)
        else if ¬ authority.is_signer then .error (.Custom .InvalidOwner)
        else .ok source_account
    | none =>
      if source_account.owner ≠ authority.key then .error (.Custom .InvalidOwner)
      else if ¬ authority.is_signer then .error (.Custom .InvalidOwner)
      else .ok source_account : Except ProgramError Account) with
  | .error e => .error e
  | .ok source_account1 =>
  if source.key = destination.key then .ok (source, destination)
  else if source_account1.amount < amount then .error (.Custom .InsufficientFunds)
  else
  match checked_sub source_account1.amount amount with
  | none => .error (.Custom .Overflow)
  | some newSourceAmount =>
  match checked_add destination_account.amount amount with
  | none => .error (.Custom .Overflow)
  | some newDestinationAmount =>
  match Account.pack { source_account1 with amount := newSourceAmount } source.data with
  | .error e => .error e
  | .ok newSourceData =>
  match Account.pack { destination_account with amount := newDestinationAmount }
      destination.data with
  | .error e => .error e
  | .ok newDestinationData =>
  .ok ({ source with data := newSourceData },
       { destination with data := newDestinationData })

/-- Processor::process_mint_to (processor.rs). Accounts: mint, destination,
authority. -/
def process_mint_to (mint_info destination authority : AccountInfo) (amount : Nat) :
    Except ProgramError (AccountInfo × AccountInfo) :=
  match check_program_account mint_info with
  | .error e => .error e
  | .ok _ =>
  match check_program_account destination with
  | .error e => .error e
  | .ok _ =>
  if ¬ mint_info.is_writable then .error (.Custom .InvalidOwner)
  else if ¬ destination.is_writable then .error (.Custom .InvalidOwner)
  else
  match Mint.unpack mint_info.data with
  | .error e => .error e
  | .ok mint =>
  if ¬ mint.is_initialized then .error (.Custom .InvalidMint)
  else
  match mint.mint_authority with
  | none => .error (.Custom .InvalidMint)
  | some auth =>
  if auth ≠ authority.key then .error (.Custom .InvalidOwner)
  else if ¬ authority.is_signer then .error (.Custom .InvalidOwner)
  else
  match Account.unpack destination.data with
  | .error e => .error e
  | .ok destination_account =>
  if ¬ destination_account.is_initialized then .error (.Custom .NotInitialized)
  else if destination_account.mint ≠ mint_info.key then .error (.Custom .MintMismatch)
  else
  match checked_add mint.supply amount with
  | none => .error (.Custom .Overflow)
  | some newSupply =>
  match checked_add destination_account.amount amount with
  | none => .error (.Custom .Overflow)
  | some newAmount =>
  match Mint.pack { mint with supply := newSupply } mint_info.data with
  | .error e => .error e
  | .ok newMintData =>
  match Account.pack { destination_account with amount := newAmount } destination.data with
  | .error e => .error e
  | .ok newDestinationData =>
  .ok ({ mint_info with data := newMintData },
       { destination with data := newDestinationData })

/-- Processor::process_burn (processor.rs). Accounts: account, mint, authority;
the authority must be the account owner (no delegate path). -/
def process_burn (account_info mint_info authority : AccountInfo) (amount : Nat) :
    Except ProgramError (AccountInfo × AccountInfo) :=
  match check_program_account account_info with
  | .error e => .error e
  | .ok _ =>
  match check_program_account mint_info with
  | .error e => .error e
  | .ok _ =>
  if ¬ account_info.is_writable then .error (.Custom .InvalidOwner)
  else if ¬ mint_info.is_writable then .error (.Custom .InvalidOwner)
  else
  match Account.unpack account_info.data with
  | .error e => .error e
  | .ok account =>
  if ¬ account.is_initialized then .error (.Custom .NotInitialized)
  else if account.is_frozen then .error (.Custom .AccountFrozen)
  else
  match Mint.unpack mint_info.data with
  | .error e => .error e
  | .ok mint =>
  if ¬ mint.is_initialized then .error (.Custom .InvalidMint)
  else if account.mint ≠ mint_info.key then .error (.Custom .MintMismatch)
  else if account.owner ≠ authority.key then .error (.Custom .InvalidOwner)
  else if ¬ authority.is_signer then .error (.Custom .InvalidOwner)
  else if account.amount < amount then .error (.Custom .InsufficientFunds)
  else
  match checked_sub account.amount amount with
  | none => .error (.Custom .Overflow)
  | some newAmount =>
  match checked_sub mint.supply amount with
  | none => .error (.Custom .Overflow)
  | some newSupply =>
  match Account.pack { account with amount := newAmount } account_info.data with
  | .error e => .error e
  | .ok newAccountData =>
  match Mint.pack { mint with supply := newSupply } mint_info.data with
  | .error e => .error e
  | .ok newMintData =>
  .ok ({ account_info with data := newAccountData },
       { mint_info with data := newMintData })

/-- Processor::process_sync_native (processor.rs). One account: the native account. -/
def process_sync_native (native_account_info : AccountInfo) :
    Except ProgramError AccountInfo :=
  match check_program_account native_account_info with
  | .error e => .error e
  | .ok _ =>
  match Account.unpack native_account_info.data with
  | .error e => .error e
  | .ok native_account =>
  match native_account.is_native with
  | some rent_exempt_reserve =>
    match checked_sub native_account_info.lamports rent_exempt_reserve with
    | none => .error (.Custom .Overflow)
    | some new_amount =>
      if new_amount < native_account.amount then .error (.Custom .InvalidState)
      else
        match Account.pack { native_account with amount := new_amount }
            native_account_info.data with
        | .error e => .error e
        | .ok newData => .ok { native_account_info with data := newData }
  | none => .error (.Custom .NonNativeNotSupported)

/-- Processor::process_approve (processor.rs). Accounts: source, delegate, owner. -/
def process_approve (source_account_info delegate_info owner_info : AccountInfo)
    (amount : Nat) : Except ProgramError AccountInfo :=
  match check_program_account source_account_info with
  | .error e => .error e
  | .ok _ =>
  if ¬ source_account_info.is_writable then .error (.Custom .InvalidOwner)
  else
  match Account.unpack source_account_info.data with
  | .error e => .error e
  | .ok source_account =>
  if ¬ source_account.is_initialized then .error (.Custom .NotInitialized)
  else if source_account.is_frozen then .error (.Custom .AccountFrozen)
  else if source_account.owner ≠ owner_info.key then .error (.Custom .InvalidOwner)
  else if ¬ owner_info.is_signer then .error (.Custom .InvalidOwner)
  else
  match Account.pack { source_account with
      delegate := some delegate_info.key,
      delegated_amount := amount } source_account_info.data with
  | .error e => .error e
  | .ok newData => .ok { source_account_info with data := newData }

/-- Processor::process_freeze_account (processor.rs). Accounts: account, mint,
authority. -/
def process_freeze_account (account_info mint_info authority : AccountInfo) :
    Except ProgramError AccountInfo :=
  match check_program_account account_info with
  | .error e => .error e
  | .ok _ =>
  if ¬ account_info.is_writable then .error (.Custom .InvalidOwner)
  else
  match Account.unpack account_info.data with
  | .error e => .error e
  | .ok account =>
  if ¬ account.is_initialized then .error (.Custom .NotInitialized)
  else if account.is_frozen then .error (.Custom .InvalidState)
  else if account.is_native.isSome then .error (.Custom .NonNativeNotSupported)
  else if account.mint ≠ mint_info.key then .error (.Custom .MintMismatch)
  else
  match Mint.unpack mint_info.data with
  | .error e => .error e
  | .ok mint =>
  match mint.freeze_authority with
  | some freeze_authority =>
    if freeze_authority ≠ authority.key then .error (.Custom .InvalidOwner)
    else if ¬ authority.is_signer then .error (.Custom .InvalidOwner)
    else
      match Account.pack { account with is_frozen := true } account_info.data with
      | .error e => .error e
      | .ok newData => .ok { account_info with data := newData }
  | none => .error (.Custom .MintCannotFreeze)

/-- Processor::process_thaw_account (processor.rs). Accounts: account, mint,
authority. -/
def process_thaw_account (account_info mint_info authority : AccountInfo) :
    Except ProgramError AccountInfo :=
  match check_program_account account_info with
  | .error e => .error e
  | .ok _ =>
  if ¬ account_info.is_writable then .error (.Custom .InvalidOwner)
  else
  match Account.unpack account_info.data with
  | .error e => .error e
  | .ok account =>
  if ¬ account.is_initialized then .error (.Custom .NotInitialized)
  else if ¬ account.is_frozen then .error (.Custom .InvalidState)
  else if account.is_native.isSome then .error (.Custom .NonNativeNotSupported)
  else if account.mint ≠ mint_info.key then .error (.Custom .MintMismatch)
  else
  match Mint.unpack mint_info.data with
  | .error e => .error e
  | .ok mint =>
  match mint.freeze_authority with
  | some freeze_authority =>
    if freeze_authority ≠ authority.key then .error (.Custom .InvalidOwner)
    else if ¬ authority.is_signer then .error (.Custom .InvalidOwner)
    else
      match Account.pack { account with is_frozen := false } account_info.data with
      | .error e => .error e
      | .ok newData => .ok { account_info with data := newData }
  | none => .error (.Custom .MintCannotFreeze)

/-- Modelled from the spec: the Revoke handler is absent from src/ — the tests call
Processor::process_revoke and instruction.rs decodes tag 5 to Revoke, but
processor.rs defines no such function and its dispatcher has no Revoke arm. Per
§4.4, Revoke "requires signer-owner, requires account not frozen; sets
delegate=None, delegated_amount=0", with the account-ownership check of §4.3 and
the AccountFrozen error of §8's freeze-gating property. Accounts (as in the
tests): source account, owner. -/
def process_revoke (source_account_info owner_info : AccountInfo) :
    Except ProgramError AccountInfo :=
  match check_program_account source_account_info with
  | .error e => .error e
  | .ok _ =>
  match Account.unpack source_account_info.data with
  | .error e => .error e
  | .ok source_account =>
  if ¬ source_account.is_initialized then .error (.Custom .NotInitialized)
  else if source_account.is_frozen then .error (.Custom .AccountFrozen)
  else if source_account.owner ≠ owner_info.key then .error (.Custom .InvalidOwner)
  else if ¬ owner_info.is_signer then .error (.Custom .InvalidOwner)
  else
  match Account.pack { source_account with
      delegate := none, delegated_amount := 0 } source_account_info.data with
  | .error e => .error e
  | .ok newData => .ok { source_account_info with data := newData }

/-- The runtime effect of a Transfer invocation on the two account buffers: on
success the handler's writes, on error the originals — the failing paths of
process_transfer all return before either Account::pack call, and the
transactional boundary retains no write from a failed invocation (spec §5). -/
def transferApply (source destination authority : AccountInfo) (amount : Nat) :
    AccountInfo × AccountInfo :=
  match process_transfer source destination authority amount with
  | .ok r => r
  | .error _ => (source, destination)

/-- The runtime effect of a Burn invocation on the account and mint buffers. -/
def burnApply (account_info mint_info authority : AccountInfo) (amount : Nat) :
    AccountInfo × AccountInfo :=
  match process_burn account_info mint_info authority amount with
  | .ok r => r
  | .error _ => (account_info, mint_info)

/-- The owner-or-delegate resolution of process_transfer (§4.3): the supplied
authority passes when it is the stored delegate, signs, and the amount fits the
delegated allowance, or else when it is the owner and signs. -/
def authority_resolves (source_account : Account) (authority : AccountInfo)
    (amount : Nat) : Bool :=
  match source_account.delegate with
  | some d =>
    if d = authority.key then
      authority.is_signer && decide (amount ≤ source_account.delegated_amount)
    else decide (source_account.owner = authority.key) && authority.is_signer
  | none => decide (source_account.owner = authority.key) && authority.is_signer

/-- An AccountInfo as the host builds it for a program-owned writable account whose
buffer holds the packed record. -/
def mkAcctInfo (key : Pubkey) (a : Account) : AccountInfo :=
  { key := key, lamports := 0,
    data := Account.pack_into_slice a (List.replicate 181 0),
    owner := tokenProgramId, is_signer := false, is_writable := true }

/-- An AccountInfo holding a packed mint record. -/
def mkMintInfo (key : Pubkey) (m : Mint) : AccountInfo :=
  { key := key, lamports := 0,
    data := Mint.pack_into_slice m (List.replicate 82 0),
    owner := tokenProgramId, is_signer := false, is_writable := true }

/-- The amount an entry contributes to the conservation sum: its balance when the
account record is initialized. -/
def contribution (p : Pubkey × Account) : Nat :=
  if p.2.is_initialized then p.2.amount else 0

/-- Σ account.amount over the initialized accounts of a ledger. -/
def sumAmounts (l : List (Pubkey × Account)) : Nat := (l.map contribution).sum

/-- One successful Transfer / MintTo / Burn operation on a ledger of one mint: the
handlers run on the packed buffers and the successor ledger holds what their
output buffers decode to. -/
inductive BankStep (mintKey : Pubkey) :
    Mint × List (Pubkey × Account) → Mint × List (Pubkey × Account) → Prop where
  | transfer (m : Mint) (l : List (Pubkey × Account)) (i j : Nat)
      (hi : i < l.length) (hj : j < l.length)
      (authority : AccountInfo) (amount : Nat) (s' d' : AccountInfo) (A' B' : Account)
      (hrun : process_transfer (mkAcctInfo (l.get ⟨i, hi⟩).1 (l.get ⟨i, hi⟩).2)
                (mkAcctInfo (l.get ⟨j, hj⟩).1 (l.get ⟨j, hj⟩).2) authority amount
              = .ok (s', d'))
      (hA : Account.unpack_unchecked s'.data = .ok A')
      (hB : Account.unpack_unchecked d'.data = .ok B') :
      BankStep mintKey (m, l)
        (m, (l.set i ((l.get ⟨i, hi⟩).1, A')).set j ((l.get ⟨j, hj⟩).1, B'))
  | mintTo (m : Mint) (l : List (Pubkey × Account)) (j : Nat) (hj : j < l.length)
      (authority : AccountInfo) (amount : Nat) (mi' d' : AccountInfo)
      (m' : Mint) (B' : Account)
      (hrun : process_mint_to (mkMintInfo mintKey m)
                (mkAcctInfo (l.get ⟨j, hj⟩).1 (l.get ⟨j, hj⟩).2) authority amount
              = .ok (mi', d'))
      (hm : Mint.unpack_unchecked mi'.data = .ok m')
      (hB : Account.unpack_unchecked d'.data = .ok B') :
      BankStep mintKey (m, l) (m', l.set j ((l.get ⟨j, hj⟩).1, B'))
  | burn (m : Mint) (l : List (Pubkey × Account)) (i : Nat) (hi : i < l.length)
      (authority : AccountInfo) (amount : Nat) (ai' mi' : AccountInfo)
      (m' : Mint) (A' : Account)
      (hrun : process_burn (mkAcctInfo (l.get ⟨i, hi⟩).1 (l.get ⟨i, hi⟩).2)
                (mkMintInfo mintKey m) authority amount = .ok (ai', mi'))
      (hA : Account.unpack_unchecked ai'.data = .ok A')
      (hm : Mint.unpack_unchecked mi'.data = .ok m') :
      BankStep mintKey (m, l) (m', l.set i ((l.get ⟨i, hi⟩).1, A'))

/-- A ledger whose records carry Rust's u64/[u8; 32] typing bounds. -/
def BankWF (s : Mint × List (Pubkey × Account)) : Prop :=
  s.1.Valid ∧ ∀ p ∈ s.2, (Prod.snd p).Valid

/-- The source record after a delegate-authorized transfer of amount: balance and
delegated_amount reduced, delegate cleared exactly when the allowance hits zero
(the update process_transfer performs in its delegate branch). -/
def Account.afterDelegateTransfer (A : Account) (amount : Nat) : Account :=
  { A with
    amount := A.amount - amount,
    delegated_amount := A.delegated_amount - amount,
    delegate := if A.delegated_amount - amount = 0 then none else A.delegate }

/-- The destination record credited with amount. -/
def Account.credited (B : Account) (amount : Nat) : Account :=
  { B with amount := B.amount + amount }

/-- Concrete 32-byte keys for the witness scenarios. -/
def wMintKey : Pubkey := List.replicate 32 1

/-- Witness owner key. -/
def wOwnerKey : Pubkey := List.replicate 32 2

/-- Witness delegate key. -/
def wDelegateKey : Pubkey := List.replicate 32 3

/-- Witness source-account address. -/
def wSrcKey : Pubkey := List.replicate 32 4

/-- Witness destination-account address. -/
def wDstKey : Pubkey := List.replicate 32 5

/-- Witness freeze-authority key. -/
def wFreezeKey : Pubkey := List.replicate 32 6

/-- A concrete initialized, unfrozen, non-native account holding 60 tokens. -/
def wAccount : Account :=
  { mint := wMintKey, owner := wOwnerKey, amount := 60, is_initialized := true,
    is_native := none, delegate := none, delegated_amount := 0, is_frozen := false }

/-- A concrete initialized mint with supply 100 and a freeze authority. -/
def wMint : Mint :=
  { mint_authority := some wOwnerKey, supply := 100, decimals := 6,
    is_initialized := true, freeze_authority := some wFreezeKey }

/-- A signer-only AccountInfo (an authority account: no data, not writable). -/
def wSigner (key : Pubkey) : AccountInfo :=
  { key := key, lamports := 0, data := [], owner := tokenProgramId,
    is_signer := true, is_writable := false }

/-- A concrete native account: 5 tokens recorded, reserve 1 lamport. -/
def wNativeAccount : Account :=
  { mint := wMintKey, owner := wOwnerKey, amount := 5, is_initialized := true,
    is_native := some 1, delegate := none, delegated_amount := 0, is_frozen := false }

/-- wAccount after an Approve of 500 to wDelegateKey. -/
def wApprovedAccount : Account :=
  { wAccount with delegate := some wDelegateKey, delegated_amount := 500 }

/-- The native account's info with 10 lamports on deposit. -/
def wNativeInfo10 : AccountInfo := { mkAcctInfo wSrcKey wNativeAccount with lamports := 10 }

/-- The approved account holding 1000 tokens. -/
def wRichApproved : Account := { wApprovedAccount with amount := 1000 }

/-- wAccount in the frozen state. -/
def wFrozenAccount : Account := { wAccount with is_frozen := true }

/-- An optional-value tag is well formed when its 4 bytes are [0,0,0,0] (absent)
or [1,0,0,0] (present): 0 or 1 in the low byte with zero high bytes. -/
def validCoptionTag (t : List Byte) : Prop := t = [0, 0, 0, 0] ∨ t = [1, 0, 0, 0]

instance (t : List Byte) : Decidable (validCoptionTag t) := by
  unfold validCoptionTag; infer_instance

/-! ### Byte- and segment-level lemmas -/

theorem toLeBytes_length (k n : Nat) : (toLeBytes k n).length = k := by
  induction k generalizing n with
  | zero => rfl
  | succ k ih => simp [toLeBytes, ih]

theorem fromLeBytes_toLeBytes (k n : Nat) (h : n < 256 ^ k) :
    fromLeBytes (toLeBytes k n) = n := by
  induction k generalizing n with
  | zero =>
    simp only [toLeBytes, fromLeBytes]
    simp only [pow_zero] at h
    omega
  | succ k ih =>
    have hd : n / 256 < 256 ^ k := by
      rw [Nat.div_lt_iff_lt_mul (by norm_num)]
      calc n < 256 ^ (k + 1) := h
        _ = 256 ^ k * 256 := by ring
    simp only [toLeBytes, fromLeBytes, ih _ hd]
    omega

theorem fromLeBytes_lt (bs : List Byte) : fromLeBytes bs < 256 ^ bs.length := by
  induction bs with
  | nil => simp [fromLeBytes]
  | cons b rest ih =>
    have hb := b.isLt
    simp only [fromLeBytes, List.length_cons, pow_succ]
    omega

theorem drop_add (l : List Byte) (m k : Nat) : l.drop (m + k) = (l.drop m).drop k :=
  (List.drop_drop k m l).symm

theorem seg_append_add (B R : List Byte) (n off len : Nat) (h : B.length = n) :
    seg (B ++ R) (n + off) len = seg R off len := by
  unfold seg
  rw [drop_add, List.drop_left' h]

theorem seg_append_zero (B R : List Byte) (n : Nat) (h : B.length = n) :
    seg (B ++ R) 0 n = B := by
  unfold seg
  simp [List.take_left' h]

theorem seg_self (B : List Byte) (n : Nat) (h : B.length = n) : seg B 0 n = B := by
  unfold seg
  simp [List.take_of_length_le h.le]

theorem seg_length (l : List Byte) (off len : Nat) :
    (seg l off len).length = min len (l.length - off) := by
  simp [seg]

theorem parse_bool_byte_boolByte (b : Bool) : parse_bool_byte (boolByte b) = .ok b := by
  cases b <;> decide

/-! ### Option-codec lemmas -/

theorem pack_coption_u64_length (o : Option Nat) : (pack_coption_u64 o).length = 36 := by
  cases o <;> simp [pack_coption_u64, toLeBytes_length]

theorem pack_coption_key_length (o : Option Pubkey) (body : List Byte)
    (ho : optKeyValid o) (hb : body.length = 32) :
    (pack_coption_key o body).length = 36 := by
  cases o <;> simp_all [pack_coption_key, optKeyValid]

theorem unpack_pack_coption_key (o : Option Pubkey) (body : List Byte)
    (ho : optKeyValid o) :
    unpack_coption_key (pack_coption_key o body) = .ok o := by
  cases o with
  | none =>
    show unpack_coption_key (0 :: 0 :: 0 :: 0 :: body) = .ok none
    unfold unpack_coption_key
    rw [if_pos (show seg (0 :: 0 :: 0 :: 0 :: body) 0 4 = [0, 0, 0, 0] from rfl)]
  | some k =>
    show unpack_coption_key (1 :: 0 :: 0 :: 0 :: k) = .ok (some k)
    unfold unpack_coption_key
    have hseg : seg (1 :: 0 :: 0 :: 0 :: k) 0 4 = [1, 0, 0, 0] := rfl
    rw [hseg, if_neg (by decide), if_pos rfl]
    have hseg2 : seg (1 :: 0 :: 0 :: 0 :: k) 4 32 = k.take 32 := rfl
    rw [hseg2, List.take_of_length_le (le_of_eq ho)]

theorem unpack_pack_coption_u64 (o : Option Nat) (ho : optU64Valid o) :
    unpack_coption_u64 (pack_coption_u64 o) = .ok o := by
  cases o with
  | none => rfl
  | some v =>
    show unpack_coption_u64
        (1 :: 0 :: 0 :: 0 :: (toLeBytes 8 v ++ List.replicate 24 0)) = .ok (some v)
    unfold unpack_coption_u64
    have hseg : seg (1 :: 0 :: 0 :: 0 :: (toLeBytes 8 v ++ List.replicate 24 0)) 0 4
        = [1, 0, 0, 0] := rfl
    rw [hseg, if_neg (by decide), if_pos rfl]
    have hseg2 : seg (1 :: 0 :: 0 :: 0 :: (toLeBytes 8 v ++ List.replicate 24 0)) 4 8
        = (toLeBytes 8 v ++ List.replicate 24 0).take 8 := rfl
    rw [hseg2, List.take_left' (toLeBytes_length 8 v),
      fromLeBytes_toLeBytes 8 v (lt_of_lt_of_le ho (by norm_num))]

theorem unpack_coption_key_valid (src : List Byte) (h36 : src.length = 36)
    (o : Option Pubkey) (h : unpack_coption_key src = .ok o) : optKeyValid o := by
  unfold unpack_coption_key at h
  by_cases h1 : seg src 0 4 = [0, 0, 0, 0]
  · rw [if_pos h1] at h
    cases h
    trivial
  · rw [if_neg h1] at h
    by_cases h2 : seg src 0 4 = [1, 0, 0, 0]
    · rw [if_pos h2] at h
      cases h
      show (seg src 4 32).length = 32
      rw [seg_length, h36]
      norm_num
    · rw [if_neg h2] at h
      cases h

theorem unpack_coption_u64_valid (src : List Byte) (h36 : src.length = 36)
    (o : Option Nat) (h : unpack_coption_u64 src = .ok o) : optU64Valid o := by
  unfold unpack_coption_u64 at h
  by_cases h1 : seg src 0 4 = [0, 0, 0, 0]
  · rw [if_pos h1] at h
    cases h
    trivial
  · rw [if_neg h1] at h
    by_cases h2 : seg src 0 4 = [1, 0, 0, 0]
    · rw [if_pos h2] at h
      cases h
      show fromLeBytes (seg src 4 8) < 2 ^ 64
      have hlt := fromLeBytes_lt (seg src 4 8)
      rw [seg_length, h36] at hlt
      calc fromLeBytes (seg src 4 8) < 256 ^ min 8 (36 - 4) := hlt
        _ ≤ 2 ^ 64 := by norm_num
    · rw [if_neg h2] at h
      cases h

/-! ### Record round-trip lemmas -/

theorem Account.unpack_from_slice_pack (a : Account) (hv : a.Valid)
    (dst : List Byte) (hd : dst.length = 181) :
    Account.unpack_from_slice (Account.pack_into_slice a dst) = .ok a := by
  obtain ⟨hm, ho, ha, hn, hdel, hda⟩ := hv
  obtain ⟨am, ao, aa, ai, an, ad, ada, af⟩ := a
  simp only [Account.pack_into_slice, Account.unpack_from_slice, List.append_assoc]
  set B9 := seg dst 154 27 with hB9
  set R7 := [boolByte af] ++ B9 with hR7
  set R6 := toLeBytes 8 ada ++ R7 with hR6
  set R5 := pack_coption_key ad (seg dst 113 32) ++ R6 with hR5
  set R4 := pack_coption_u64 an ++ R5 with hR4
  set R3 := [boolByte ai] ++ R4 with hR3
  set R2 := toLeBytes 8 aa ++ R3 with hR2
  set R1 := ao ++ R2 with hR1
  set P := am ++ R1 with hP
  have l1 : am.length = 32 := hm
  have l2 : ao.length = 32 := ho
  have l3 : (toLeBytes 8 aa).length = 8 := toLeBytes_length 8 aa
  have l4 : ([boolByte ai] : List Byte).length = 1 := rfl
  have l5 : (pack_coption_u64 an).length = 36 := pack_coption_u64_length an
  have lseg113 : (seg dst 113 32).length = 32 := by rw [seg_length, hd]; decide
  have l6 : (pack_coption_key ad (seg dst 113 32)).length = 36 :=
    pack_coption_key_length ad _ hdel lseg113
  have l7 : (toLeBytes 8 ada).length = 8 := toLeBytes_length 8 ada
  have l8 : ([boolByte af] : List Byte).length = 1 := rfl
  have l9 : B9.length = 27 := by rw [hB9, seg_length, hd]; decide
  have lR7 : R7.length = 28 := by rw [hR7]; simp [l9]
  have lR6 : R6.length = 36 := by rw [hR6]; simp [l7, lR7]
  have lR5 : R5.length = 72 := by rw [hR5]; simp [l6, lR6]
  have lR4 : R4.length = 108 := by rw [hR4]; simp [l5, lR5]
  have lR3 : R3.length = 109 := by rw [hR3]; simp [lR4]
  have lR2 : R2.length = 117 := by rw [hR2]; simp [l3, lR3]
  have lR1 : R1.length = 149 := by rw [hR1]; simp [l2, lR2]
  have lP : P.length = 181 := by rw [hP]; simp [l1, lR1]
  have p1 : ∀ off len, seg P (32 + off) len = seg R1 off len := fun off len => by
    rw [hP]; exact seg_append_add _ _ _ _ _ l1
  have p2 : ∀ off len, seg R1 (32 + off) len = seg R2 off len := fun off len => by
    rw [hR1]; exact seg_append_add _ _ _ _ _ l2
  have p3 : ∀ off len, seg R2 (8 + off) len = seg R3 off len := fun off len => by
    rw [hR2]; exact seg_append_add _ _ _ _ _ l3
  have p4 : ∀ off len, seg R3 (1 + off) len = seg R4 off len := fun off len => by
    rw [hR3]; exact seg_append_add _ _ _ _ _ l4
  have p5 : ∀ off len, seg R4 (36 + off) len = seg R5 off len := fun off len => by
    rw [hR4]; exact seg_append_add _ _ _ _ _ l5
  have p6 : ∀ off len, seg R5 (36 + off) len = seg R6 off len := fun off len => by
    rw [hR5]; exact seg_append_add _ _ _ _ _ l6
  have p7 : ∀ off len, seg R6 (8 + off) len = seg R7 off len := fun off len => by
    rw [hR6]; exact seg_append_add _ _ _ _ _ l7
  have r0 : seg P 0 32 = am := by rw [hP]; exact seg_append_zero _ _ _ l1
  have r32 : seg P 32 32 = ao := by
    have e1 := p1 0 32; norm_num at e1
    rw [e1, hR1]
    exact seg_append_zero _ _ _ l2
  have r64 : seg P 64 8 = toLeBytes 8 aa := by
    have e1 := p1 32 8; norm_num at e1
    have e2 := p2 0 8; norm_num at e2
    rw [e1, e2, hR2]
    exact seg_append_zero _ _ _ l3
  have r72 : seg P 72 1 = [boolByte ai] := by
    have e1 := p1 40 1; norm_num at e1
    have e2 := p2 8 1; norm_num at e2
    have e3 := p3 0 1; norm_num at e3
    rw [e1, e2, e3, hR3]
    exact seg_append_zero _ _ _ l4
  have r73 : seg P 73 36 = pack_coption_u64 an := by
    have e1 := p1 41 36; norm_num at e1
    have e2 := p2 9 36; norm_num at e2
    have e3 := p3 1 36; norm_num at e3
    have e4 := p4 0 36; norm_num at e4
    rw [e1, e2, e3, e4, hR4]
    exact seg_append_zero _ _ _ l5
  have r109 : seg P 109 36 = pack_coption_key ad (seg dst 113 32) := by
    have e1 := p1 77 36; norm_num at e1
    have e2 := p2 45 36; norm_num at e2
    have e3 := p3 37 36; norm_num at e3
    have e4 := p4 36 36; norm_num at e4
    have e5 := p5 0 36; norm_num at e5
    rw [e1, e2, e3, e4, e5, hR5]
    exact seg_append_zero _ _ _ l6
  have r145 : seg P 145 8 = toLeBytes 8 ada := by
    have e1 := p1 113 8; norm_num at e1
    have e2 := p2 81 8; norm_num at e2
    have e3 := p3 73 8; norm_num at e3
    have e4 := p4 72 8; norm_num at e4
    have e5 := p5 36 8; norm_num at e5
    have e6 := p6 0 8; norm_num at e6
    rw [e1, e2, e3, e4, e5, e6, hR6]
    exact seg_append_zero _ _ _ l7
  have r153 : seg P 153 1 = [boolByte af] := by
    have e1 := p1 121 1; norm_num at e1
    have e2 := p2 89 1; norm_num at e2
    have e3 := p3 81 1; norm_num at e3
    have e4 := p4 80 1; norm_num at e4
    have e5 := p5 44 1; norm_num at e5
    have e6 := p6 8 1; norm_num at e6
    have e7 := p7 0 1; norm_num at e7
    rw [e1, e2, e3, e4, e5, e6, e7, hR7]
    exact seg_append_zero _ _ _ l8
  rw [lP]
  simp only [Account.LEN, if_true]
  rw [r0, r32, r64, r72, r73, r109, r145, r153]
  simp only [List.headD_cons]
  rw [unpack_pack_coption_u64 an hn, unpack_pack_coption_key ad _ hdel]
  rw [fromLeBytes_toLeBytes 8 aa (lt_of_lt_of_le ha (by norm_num)),
      fromLeBytes_toLeBytes 8 ada (lt_of_lt_of_le hda (by norm_num)),
      parse_bool_byte_boolByte ai, parse_bool_byte_boolByte af]

theorem Mint.unpack_from_slice_pack_mint (m : Mint) (hv : m.Valid)
    (dst : List Byte) (hd : dst.length = 82) :
    Mint.unpack_from_slice (Mint.pack_into_slice m dst) = .ok m := by
  obtain ⟨hma, hs, hfa⟩ := hv
  obtain ⟨ma, s, dc, ii, fa⟩ := m
  simp only [Mint.pack_into_slice, Mint.unpack_from_slice, List.append_assoc]
  set R4 := pack_coption_key fa (seg dst 50 32) with hR4
  set R3 := [boolByte ii] ++ R4 with hR3
  set R2 := [dc] ++ R3 with hR2
  set R1 := toLeBytes 8 s ++ R2 with hR1
  set P := pack_coption_key ma (seg dst 4 32) ++ R1 with hP
  have lseg4 : (seg dst 4 32).length = 32 := by rw [seg_length, hd]; decide
  have lseg50 : (seg dst 50 32).length = 32 := by rw [seg_length, hd]; decide
  have l1 : (pack_coption_key ma (seg dst 4 32)).length = 36 :=
    pack_coption_key_length ma _ hma lseg4
  have l2 : (toLeBytes 8 s).length = 8 := toLeBytes_length 8 s
  have l3 : ([dc] : List Byte).length = 1 := rfl
  have l4 : ([boolByte ii] : List Byte).length = 1 := rfl
  have l5 : (pack_coption_key fa (seg dst 50 32)).length = 36 :=
    pack_coption_key_length fa _ hfa lseg50
  have lR4 : R4.length = 36 := by rw [hR4]; simp [l5]
  have lR3 : R3.length = 37 := by rw [hR3]; simp [lR4]
  have lR2 : R2.length = 38 := by rw [hR2]; simp [lR3]
  have lR1 : R1.length = 46 := by rw [hR1]; simp [l2, lR2]
  have lP : P.length = 82 := by rw [hP]; simp [l1, lR1]
  have p1 : ∀ off len, seg P (36 + off) len = seg R1 off len := fun off len => by
    rw [hP]; exact seg_append_add _ _ _ _ _ l1
  have p2 : ∀ off len, seg R1 (8 + off) len = seg R2 off len := fun off len => by
    rw [hR1]; exact seg_append_add _ _ _ _ _ l2
  have p3 : ∀ off len, seg R2 (1 + off) len = seg R3 off len := fun off len => by
    rw [hR2]; exact seg_append_add _ _ _ _ _ l3
  have r0 : seg P 0 36 = pack_coption_key ma (seg dst 4 32) := by
    rw [hP]; exact seg_append_zero _ _ _ l1
  have r36 : seg P 36 8 = toLeBytes 8 s := by
    have e1 := p1 0 8; norm_num at e1
    rw [e1, hR1]
    exact seg_append_zero _ _ _ l2
  have r44 : seg P 44 1 = [dc] := by
    have e1 := p1 8 1; norm_num at e1
    have e2 := p2 0 1; norm_num at e2
    rw [e1, e2, hR2]
    exact seg_append_zero _ _ _ l3
  have r45 : seg P 45 1 = [boolByte ii] := by
    have e1 := p1 9 1; norm_num at e1
    have e2 := p2 1 1; norm_num at e2
    have e3 := p3 0 1; norm_num at e3
    rw [e1, e2, e3, hR3]
    exact seg_append_zero _ _ _ l4
  have r46 : seg P 46 36 = pack_coption_key fa (seg dst 50 32) := by
    have e1 := p1 10 36; norm_num at e1
    have e2 := p2 2 36; norm_num at e2
    have e3 := p3 1 36; norm_num at e3
    have e4 : seg R3 1 36 = seg R4 0 36 := by
      rw [hR3]
      have := seg_append_add ([boolByte ii] : List Byte) R4 1 0 36 l4
      norm_num at this
      exact this
    rw [e1, e2, e3, e4]
    exact seg_self _ _ l5
  rw [lP]
  simp only [Mint.LEN, if_true]
  rw [r0, r36, r44, r45, r46]
  simp only [List.headD_cons]
  rw [unpack_pack_coption_key ma _ hma, unpack_pack_coption_key fa _ hfa,
      fromLeBytes_toLeBytes 8 s (lt_of_lt_of_le hs (by norm_num)),
      parse_bool_byte_boolByte ii]

theorem Account.length_eq_of_unpack_from_slice (src : List Byte) (a : Account)
    (h : Account.unpack_from_slice src = .ok a) : src.length = 181 := by
  unfold Account.unpack_from_slice at h
  by_cases hl : src.length = Account.LEN
  · exact hl
  · rw [if_neg hl] at h
    cases h

theorem Account.valid_of_unpack_from_slice (src : List Byte) (a : Account)
    (h : Account.unpack_from_slice src = .ok a) : a.Valid := by
  have hl : src.length = 181 := Account.length_eq_of_unpack_from_slice src a h
  simp only [Account.unpack_from_slice, Account.LEN, hl, if_true] at h
  cases hib : parse_bool_byte ((seg src 72 1).headD 0) with
  | error e => rw [hib] at h; simp at h
  | ok ii =>
    rw [hib] at h
    cases hnat : unpack_coption_u64 (seg src 73 36) with
    | error e => rw [hnat] at h; simp at h
    | ok nat =>
      rw [hnat] at h
      cases hdc : unpack_coption_key (seg src 109 36) with
      | error e => rw [hdc] at h; simp at h
      | ok del =>
        rw [hdc] at h
        cases hfz : parse_bool_byte ((seg src 153 1).headD 0) with
        | error e => rw [hfz] at h; simp at h
        | ok fz =>
          rw [hfz] at h
          simp only [Except.ok.injEq] at h
          subst h
          refine ⟨?_, ?_, ?_, ?_, ?_, ?_⟩
          · rw [seg_length, hl]; decide
          · rw [seg_length, hl]; decide
          · have hx := fromLeBytes_lt (seg src 64 8)
            rw [seg_length, hl] at hx
            exact lt_of_lt_of_le hx (by decide)
          · exact unpack_coption_u64_valid _ (by rw [seg_length, hl]; decide) _ hnat
          · exact unpack_coption_key_valid _ (by rw [seg_length, hl]; decide) _ hdc
          · have hx := fromLeBytes_lt (seg src 145 8)
            rw [seg_length, hl] at hx
            exact lt_of_lt_of_le hx (by decide)

theorem Mint.length_eq_of_unpack_from_slice_mint (src : List Byte) (m : Mint)
    (h : Mint.unpack_from_slice src = .ok m) : src.length = 82 := by
  unfold Mint.unpack_from_slice at h
  by_cases hl : src.length = Mint.LEN
  · exact hl
  · rw [if_neg hl] at h
    cases h

theorem Mint.valid_of_unpack_from_slice_mint (src : List Byte) (m : Mint)
    (h : Mint.unpack_from_slice src = .ok m) : m.Valid := by
  have hl : src.length = 82 := Mint.length_eq_of_unpack_from_slice_mint src m h
  simp only [Mint.unpack_from_slice, Mint.LEN, hl, if_true] at h
  cases hma : unpack_coption_key (seg src 0 36) with
  | error e => rw [hma] at h; simp at h
  | ok ma =>
    rw [hma] at h
    cases hib : parse_bool_byte ((seg src 45 1).headD 0) with
    | error e => rw [hib] at h; simp at h
    | ok ii =>
      rw [hib] at h
      cases hfa : unpack_coption_key (seg src 46 36) with
      | error e => rw [hfa] at h; simp at h
      | ok fa =>
        rw [hfa] at h
        simp only [Except.ok.injEq] at h
        subst h
        refine ⟨?_, ?_, ?_⟩
        · exact unpack_coption_key_valid _ (by rw [seg_length, hl]; decide) _ hma
        · have hx := fromLeBytes_lt (seg src 36 8)
          rw [seg_length, hl] at hx
          exact lt_of_lt_of_le hx (by decide)
        · exact unpack_coption_key_valid _ (by rw [seg_length, hl]; decide) _ hfa

theorem Account.pack_into_slice_length (a : Account) (hv : a.Valid)
    (dst : List Byte) (hd : dst.length = 181) :
    (Account.pack_into_slice a dst).length = 181 := by
  obtain ⟨hm, ho, ha, hn, hdel, hda⟩ := hv
  have l6 : (pack_coption_key a.delegate (seg dst 113 32)).length = 36 :=
    pack_coption_key_length _ _ hdel (by rw [seg_length, hd]; decide)
  simp [Account.pack_into_slice, List.length_append, hm, ho, toLeBytes_length,
        pack_coption_u64_length, l6, seg_length, hd]

theorem Mint.pack_into_slice_length_mint (m : Mint) (hv : m.Valid)
    (dst : List Byte) (hd : dst.length = 82) :
    (Mint.pack_into_slice m dst).length = 82 := by
  obtain ⟨hma, hs, hfa⟩ := hv
  have l1 : (pack_coption_key m.mint_authority (seg dst 4 32)).length = 36 :=
    pack_coption_key_length _ _ hma (by rw [seg_length, hd]; decide)
  have l5 : (pack_coption_key m.freeze_authority (seg dst 50 32)).length = 36 :=
    pack_coption_key_length _ _ hfa (by rw [seg_length, hd]; decide)
  simp [Mint.pack_into_slice, List.length_append, toLeBytes_length, l1, l5]

theorem Account.unpack_unchecked_pack (a : Account) (hv : a.Valid)
    (dst : List Byte) (hd : dst.length = 181) :
    Account.unpack_unchecked (Account.pack_into_slice a dst) = .ok a := by
  unfold Account.unpack_unchecked
  rw [if_pos (show (Account.pack_into_slice a dst).length = Account.LEN from
        Account.pack_into_slice_length a hv dst hd)]
  exact Account.unpack_from_slice_pack a hv dst hd

theorem Mint.unpack_unchecked_pack_mint (m : Mint) (hv : m.Valid)
    (dst : List Byte) (hd : dst.length = 82) :
    Mint.unpack_unchecked (Mint.pack_into_slice m dst) = .ok m := by
  unfold Mint.unpack_unchecked
  rw [if_pos (show (Mint.pack_into_slice m dst).length = Mint.LEN from
        Mint.pack_into_slice_length_mint m hv dst hd)]
  exact Mint.unpack_from_slice_pack_mint m hv dst hd

theorem Account.unpack_pack (a : Account) (hv : a.Valid) (hi : a.is_initialized = true)
    (dst : List Byte) (hd : dst.length = 181) :
    Account.unpack (Account.pack_into_slice a dst) = .ok a := by
  unfold Account.unpack
  rw [Account.unpack_unchecked_pack a hv dst hd]
  simp [hi]

theorem Mint.unpack_pack_mint (m : Mint) (hv : m.Valid) (hi : m.is_initialized = true)
    (dst : List Byte) (hd : dst.length = 82) :
    Mint.unpack (Mint.pack_into_slice m dst) = .ok m := by
  unfold Mint.unpack
  rw [Mint.unpack_unchecked_pack_mint m hv dst hd]
  simp [hi]

theorem Account.unpack_ok_elim (src : List Byte) (a : Account)
    (h : Account.unpack src = .ok a) :
    Account.unpack_from_slice src = .ok a ∧ a.is_initialized = true ∧
    a.Valid ∧ src.length = 181 := by
  unfold Account.unpack Account.unpack_unchecked at h
  by_cases hl : src.length = Account.LEN
  · rw [if_pos hl] at h
    cases hu : Account.unpack_from_slice src with
    | error e => rw [hu] at h; simp at h
    | ok b =>
      rw [hu] at h
      simp only [] at h
      by_cases hb : b.is_initialized
      · rw [if_pos hb] at h
        simp only [Except.ok.injEq] at h
        subst h
        exact ⟨rfl, hb, Account.valid_of_unpack_from_slice src _ hu, hl⟩
      · rw [if_neg hb] at h
        simp at h
  · rw [if_neg hl] at h
    cases h

theorem Mint.unpack_ok_elim_mint (src : List Byte) (m : Mint)
    (h : Mint.unpack src = .ok m) :
    Mint.unpack_from_slice src = .ok m ∧ m.is_initialized = true ∧
    m.Valid ∧ src.length = 82 := by
  unfold Mint.unpack Mint.unpack_unchecked at h
  by_cases hl : src.length = Mint.LEN
  · rw [if_pos hl] at h
    cases hu : Mint.unpack_from_slice src with
    | error e => rw [hu] at h; simp at h
    | ok b =>
      rw [hu] at h
      simp only [] at h
      by_cases hb : b.is_initialized
      · rw [if_pos hb] at h
        simp only [Except.ok.injEq] at h
        subst h
        exact ⟨rfl, hb, Mint.valid_of_unpack_from_slice_mint src _ hu, hl⟩
      · rw [if_neg hb] at h
        simp at h
  · rw [if_neg hl] at h
    cases h

theorem Account.pack_ok (a : Account) (dst : List Byte) (hd : dst.length = 181) :
    Account.pack a dst = .ok (Account.pack_into_slice a dst) := by
  unfold Account.pack
  rw [if_pos (show dst.length = Account.LEN from hd)]

theorem Mint.pack_ok_mint (m : Mint) (dst : List Byte) (hd : dst.length = 82) :
    Mint.pack m dst = .ok (Mint.pack_into_slice m dst) := by
  unfold Mint.pack
  rw [if_pos (show dst.length = Mint.LEN from hd)]

/-! ### Decoder inversion lemmas -/

theorem seg_seg_take (l : List Byte) (off n k : Nat) (h : k ≤ n) :
    seg (seg l off n) 0 k = seg l off k := by
  unfold seg
  simp [List.take_take, Nat.min_eq_left h]

theorem parse_bool_byte_ok_byte (b : Byte) (x : Bool)
    (h : parse_bool_byte b = .ok x) : b = 0 ∨ b = 1 := by
  unfold parse_bool_byte at h
  split_ifs at h with h0 h1
  · exact Or.inl h0
  · exact Or.inr h1

theorem parse_bool_byte_error_eq (b : Byte) (e : ProgramError)
    (h : parse_bool_byte b = .error e) : e = .InvalidAccountData := by
  unfold parse_bool_byte at h
  split_ifs at h
  cases h
  rfl

theorem unpack_coption_key_ok_tag (src : List Byte) (o : Option Pubkey)
    (h : unpack_coption_key src = .ok o) : validCoptionTag (seg src 0 4) := by
  unfold unpack_coption_key at h
  split_ifs at h with h0 h1
  · exact Or.inl h0
  · exact Or.inr h1

theorem unpack_coption_key_error_eq (src : List Byte) (e : ProgramError)
    (h : unpack_coption_key src = .error e) : e = .InvalidAccountData := by
  unfold unpack_coption_key at h
  split_ifs at h
  cases h
  rfl

theorem unpack_coption_u64_ok_tag (src : List Byte) (o : Option Nat)
    (h : unpack_coption_u64 src = .ok o) : validCoptionTag (seg src 0 4) := by
  unfold unpack_coption_u64 at h
  split_ifs at h with h0 h1
  · exact Or.inl h0
  · exact Or.inr h1

theorem unpack_coption_u64_error_eq (src : List Byte) (e : ProgramError)
    (h : unpack_coption_u64 src = .error e) : e = .InvalidAccountData := by
  unfold unpack_coption_u64 at h
  split_ifs at h
  cases h
  rfl

theorem Mint.unpack_from_slice_ok_elim_mint (src : List Byte) (m : Mint)
    (h : Mint.unpack_from_slice src = .ok m) :
    src.length = 82 ∧
    unpack_coption_key (seg src 0 36) = .ok m.mint_authority ∧
    parse_bool_byte ((seg src 45 1).headD 0) = .ok m.is_initialized ∧
    unpack_coption_key (seg src 46 36) = .ok m.freeze_authority := by
  have hl : src.length = 82 := Mint.length_eq_of_unpack_from_slice_mint src m h
  simp only [Mint.unpack_from_slice, Mint.LEN, hl, if_true] at h
  cases hma : unpack_coption_key (seg src 0 36) with
  | error e => rw [hma] at h; simp at h
  | ok ma =>
    rw [hma] at h
    cases hib : parse_bool_byte ((seg src 45 1).headD 0) with
    | error e => rw [hib] at h; simp at h
    | ok ii =>
      rw [hib] at h
      cases hfa : unpack_coption_key (seg src 46 36) with
      | error e => rw [hfa] at h; simp at h
      | ok fa =>
        rw [hfa] at h
        simp only [Except.ok.injEq] at h
        subst h
        exact ⟨hl, rfl, rfl, rfl⟩

theorem Mint.unpack_from_slice_error_eq_mint (src : List Byte) (e : ProgramError)
    (h : Mint.unpack_from_slice src = .error e) : e = .InvalidAccountData := by
  by_cases hl : src.length = 82
  · simp only [Mint.unpack_from_slice, Mint.LEN, hl, if_true] at h
    cases hma : unpack_coption_key (seg src 0 36) with
    | error e1 =>
      rw [hma] at h
      simp at h
      rw [h] at hma
      exact unpack_coption_key_error_eq _ _ hma
    | ok ma =>
      rw [hma] at h
      cases hib : parse_bool_byte ((seg src 45 1).headD 0) with
      | error e2 =>
        rw [hib] at h
        simp at h
        rw [h] at hib
        exact parse_bool_byte_error_eq _ _ hib
      | ok ii =>
        rw [hib] at h
        cases hfa : unpack_coption_key (seg src 46 36) with
        | error e3 =>
          rw [hfa] at h
          simp at h
          rw [h] at hfa
          exact unpack_coption_key_error_eq _ _ hfa
        | ok fa =>
          rw [hfa] at h
          simp at h
  · simp only [Mint.unpack_from_slice, Mint.LEN, if_neg hl] at h
    simp at h
    exact h.symm

theorem Account.unpack_from_slice_ok_elim (src : List Byte) (a : Account)
    (h : Account.unpack_from_slice src = .ok a) :
    src.length = 181 ∧
    parse_bool_byte ((seg src 72 1).headD 0) = .ok a.is_initialized ∧
    unpack_coption_u64 (seg src 73 36) = .ok a.is_native ∧
    unpack_coption_key (seg src 109 36) = .ok a.delegate ∧
    parse_bool_byte ((seg src 153 1).headD 0) = .ok a.is_frozen := by
  have hl : src.length = 181 := Account.length_eq_of_unpack_from_slice src a h
  simp only [Account.unpack_from_slice, Account.LEN, hl, if_true] at h
  cases hib : parse_bool_byte ((seg src 72 1).headD 0) with
  | error e => rw [hib] at h; simp at h
  | ok ii =>
    rw [hib] at h
    cases hnat : unpack_coption_u64 (seg src 73 36) with
    | error e => rw [hnat] at h; simp at h
    | ok nat =>
      rw [hnat] at h
      cases hdc : unpack_coption_key (seg src 109 36) with
      | error e => rw [hdc] at h; simp at h
      | ok del =>
        rw [hdc] at h
        cases hfz : parse_bool_byte ((seg src 153 1).headD 0) with
        | error e => rw [hfz] at h; simp at h
        | ok fz =>
          rw [hfz] at h
          simp only [Except.ok.injEq] at h
          subst h
          exact ⟨hl, rfl, rfl, rfl, rfl⟩

theorem Account.unpack_from_slice_error_eq (src : List Byte) (e : ProgramError)
    (h : Account.unpack_from_slice src = .error e) : e = .InvalidAccountData := by
  by_cases hl : src.length = 181
  · simp only [Account.unpack_from_slice, Account.LEN, hl, if_true] at h
    cases hib : parse_bool_byte ((seg src 72 1).headD 0) with
    | error e1 =>
      rw [hib] at h
      simp at h
      rw [h] at hib
      exact parse_bool_byte_error_eq _ _ hib
    | ok ii =>
      rw [hib] at h
      cases hnat : unpack_coption_u64 (seg src 73 36) with
      | error e2 =>
        rw [hnat] at h
        simp at h
        rw [h] at hnat
        exact unpack_coption_u64_error_eq _ _ hnat
      | ok nat =>
        rw [hnat] at h
        cases hdc : unpack_coption_key (seg src 109 36) with
        | error e3 =>
          rw [hdc] at h
          simp at h
          rw [h] at hdc
          exact unpack_coption_key_error_eq _ _ hdc
        | ok del =>
          rw [hdc] at h
          cases hfz : parse_bool_byte ((seg src 153 1).headD 0) with
          | error e4 =>
            rw [hfz] at h
            simp at h
            rw [h] at hfz
            exact parse_bool_byte_error_eq _ _ hfz
          | ok fz =>
            rw [hfz] at h
            simp at h
  · simp only [Account.unpack_from_slice, Account.LEN, if_neg hl] at h
    simp at h
    exact h.symm

/-! ### Claim theorems -/

/-- C9: for both record kinds, decoding rejects every input whose length differs
from the record's fixed length (82 for Mint, Account::LEN = 181 for Account) with
InvalidAccountData, and rejects every correctly-sized input whose is_initialized
byte (offset 45 for Mint, 72 for Account) is neither 0 nor 1, or whose
optional-value tag (offsets 0 and 46 for Mint, 73 and 109 for Account) is not
0-or-1-in-the-low-byte-with-zero-high-bytes, with InvalidAccountData. -/
theorem C9_record_decode_rejections :
    (∀ bs : List Byte, bs.length ≠ 82 →
      Mint.unpack_from_slice bs = .error .InvalidAccountData) ∧
    (∀ bs : List Byte, bs.length ≠ 181 →
      Account.unpack_from_slice bs = .error .InvalidAccountData) ∧
    (∀ bs : List Byte, bs.length = 82 → (seg bs 45 1).headD 0 ≠ 0 →
      (seg bs 45 1).headD 0 ≠ 1 →
      Mint.unpack_from_slice bs = .error .InvalidAccountData) ∧
    (∀ bs : List Byte, bs.length = 181 → (seg bs 72 1).headD 0 ≠ 0 →
      (seg bs 72 1).headD 0 ≠ 1 →
      Account.unpack_from_slice bs = .error .InvalidAccountData) ∧
    (∀ bs : List Byte, bs.length = 82 → ¬ validCoptionTag (seg bs 0 4) →
      Mint.unpack_from_slice bs = .error .InvalidAccountData) ∧
    (∀ bs : List Byte, bs.length = 82 → ¬ validCoptionTag (seg bs 46 4) →
      Mint.unpack_from_slice bs = .error .InvalidAccountData) ∧
    (∀ bs : List Byte, bs.length = 181 → ¬ validCoptionTag (seg bs 73 4) →
      Account.unpack_from_slice bs = .error .InvalidAccountData) ∧
    (∀ bs : List Byte, bs.length = 181 → ¬ validCoptionTag (seg bs 109 4) →
      Account.unpack_from_slice bs = .error .InvalidAccountData) := by
  refine ⟨?_, ?_, ?_, ?_, ?_, ?_, ?_, ?_⟩
  · intro bs h
    simp only [Mint.unpack_from_slice, Mint.LEN, if_neg h]
  · intro bs h
    simp only [Account.unpack_from_slice, Account.LEN, if_neg h]
  · intro bs hl h0 h1
    cases ht : Mint.unpack_from_slice bs with
    | error e => rw [Mint.unpack_from_slice_error_eq_mint _ _ ht]
    | ok m =>
      exfalso
      obtain ⟨_, _, hib, _⟩ := Mint.unpack_from_slice_ok_elim_mint _ _ ht
      rcases parse_bool_byte_ok_byte _ _ hib with hb | hb
      · exact h0 hb
      · exact h1 hb
  · intro bs hl h0 h1
    cases ht : Account.unpack_from_slice bs with
    | error e => rw [Account.unpack_from_slice_error_eq _ _ ht]
    | ok a =>
      exfalso
      obtain ⟨_, hib, _, _, _⟩ := Account.unpack_from_slice_ok_elim _ _ ht
      rcases parse_bool_byte_ok_byte _ _ hib with hb | hb
      · exact h0 hb
      · exact h1 hb
  · intro bs hl htag
    cases ht : Mint.unpack_from_slice bs with
    | error e => rw [Mint.unpack_from_slice_error_eq_mint _ _ ht]
    | ok m =>
      exfalso
      obtain ⟨_, hma, _, _⟩ := Mint.unpack_from_slice_ok_elim_mint _ _ ht
      have := unpack_coption_key_ok_tag _ _ hma
      rw [seg_seg_take bs 0 36 4 (by norm_num)] at this
      exact htag this
  · intro bs hl htag
    cases ht : Mint.unpack_from_slice bs with
    | error e => rw [Mint.unpack_from_slice_error_eq_mint _ _ ht]
    | ok m =>
      exfalso
      obtain ⟨_, _, _, hfa⟩ := Mint.unpack_from_slice_ok_elim_mint _ _ ht
      have := unpack_coption_key_ok_tag _ _ hfa
      rw [seg_seg_take bs 46 36 4 (by norm_num)] at this
      exact htag this
  · intro bs hl htag
    cases ht : Account.unpack_from_slice bs with
    | error e => rw [Account.unpack_from_slice_error_eq _ _ ht]
    | ok a =>
      exfalso
      obtain ⟨_, _, hnat, _, _⟩ := Account.unpack_from_slice_ok_elim _ _ ht
      have := unpack_coption_u64_ok_tag _ _ hnat
      rw [seg_seg_take bs 73 36 4 (by norm_num)] at this
      exact htag this
  · intro bs hl htag
    cases ht : Account.unpack_from_slice bs with
    | error e => rw [Account.unpack_from_slice_error_eq _ _ ht]
    | ok a =>
      exfalso
      obtain ⟨_, _, _, hdc, _⟩ := Account.unpack_from_slice_ok_elim _ _ ht
      have := unpack_coption_key_ok_tag _ _ hdc
      rw [seg_seg_take bs 109 36 4 (by norm_num)] at this
      exact htag this

set_option maxRecDepth 8192 in
/-- C9 exercised on concrete rejected buffers: a short Mint buffer, an oversized
Account buffer, an 82-byte Mint image with is_initialized byte 7, a 181-byte
Account image with is_initialized byte 9, and images with coption tag byte 2 or 3. -/
theorem C9_record_decode_rejections_witness :
    Mint.unpack_from_slice [] = .error .InvalidAccountData ∧
    Account.unpack_from_slice (List.replicate 182 0) = .error .InvalidAccountData ∧
    Mint.unpack_from_slice
      (List.replicate 45 0 ++ [7] ++ List.replicate 36 0) = .error .InvalidAccountData ∧
    Account.unpack_from_slice
      (List.replicate 72 0 ++ [9] ++ List.replicate 108 0) = .error .InvalidAccountData ∧
    Mint.unpack_from_slice
      ([2] ++ List.replicate 81 0) = .error .InvalidAccountData ∧
    Mint.unpack_from_slice
      (List.replicate 46 0 ++ [2] ++ List.replicate 35 0) = .error .InvalidAccountData ∧
    Account.unpack_from_slice
      (List.replicate 73 0 ++ [3] ++ List.replicate 107 0) = .error .InvalidAccountData ∧
    Account.unpack_from_slice
      (List.replicate 109 0 ++ [2] ++ List.replicate 71 0) = .error .InvalidAccountData := by
  refine ⟨?_, ?_, ?_, ?_, ?_, ?_, ?_, ?_⟩ <;> decide

/-- C10: packing any well-typed Mint or Account record into a zero-initialized
buffer of the record's LEN and decoding it back returns Ok of the original
record. -/
theorem C10_pack_unpack_roundtrip :
    (∀ m : Mint, m.Valid →
      Mint.unpack_from_slice (Mint.pack_into_slice m (List.replicate 82 0)) = .ok m) ∧
    (∀ a : Account, a.Valid →
      Account.unpack_from_slice (Account.pack_into_slice a (List.replicate 181 0))
        = .ok a) :=
  ⟨fun m hv => Mint.unpack_from_slice_pack_mint m hv _ (List.length_replicate 82 0),
   fun a hv => Account.unpack_from_slice_pack a hv _ (List.length_replicate 181 0)⟩

set_option maxRecDepth 8192 in
/-- C10 at a concrete mint and account record. -/
theorem C10_pack_unpack_roundtrip_witness :
    Mint.unpack_from_slice (Mint.pack_into_slice wMint (List.replicate 82 0))
      = .ok wMint ∧
    Account.unpack_from_slice (Account.pack_into_slice wAccount (List.replicate 181 0))
      = .ok wAccount :=
  ⟨C10_pack_unpack_roundtrip.1 wMint (by decide),
   C10_pack_unpack_roundtrip.2 wAccount (by decide)⟩

set_option maxHeartbeats 4000000 in
theorem unpack_ne_thaw (bs : List Byte)
    (h : TokenInstruction.unpack bs = .ok .ThawAccount) : False := by
  cases bs with
  | nil => cases h
  | cons tag rest =>
    rw [TokenInstruction.unpack.eq_def] at h
    split at h
    next heq => cases heq
    next tg rs heq =>
    injection heq with h1 h2
    subst h1
    subst h2
    by_cases t0 : tag = 0
    · rw [if_pos t0] at h
      repeat' split at h
      all_goals cases h
    rw [if_neg t0] at h
    by_cases t1 : tag = 1
    · rw [if_pos t1] at h
      cases h
    rw [if_neg t1] at h
    by_cases t2 : tag = 2
    · rw [if_pos t2] at h
      repeat' split at h
      all_goals cases h
    rw [if_neg t2] at h
    by_cases t3 : tag = 3
    · rw [if_pos t3] at h
      repeat' split at h
      all_goals cases h
    rw [if_neg t3] at h
    by_cases t12 : tag = 12
    · rw [if_pos t12] at h
      repeat' split at h
      all_goals cases h
    rw [if_neg t12] at h
    by_cases t7 : tag = 7
    · rw [if_pos t7] at h
      repeat' split at h
      all_goals cases h
    rw [if_neg t7] at h
    by_cases t8 : tag = 8
    · rw [if_pos t8] at h
      repeat' split at h
      all_goals cases h
    rw [if_neg t8] at h
    by_cases t9 : tag = 9
    · rw [if_pos t9] at h
      cases h
    rw [if_neg t9] at h
    by_cases t10 : tag = 10
    · rw [if_pos t10] at h
      cases h
    rw [if_neg t10] at h
    by_cases t11 : tag = 11
    · rw [if_pos t11] at h
      cases h
    rw [if_neg t11] at h
    rw [if_neg t12] at h
    by_cases t5 : tag = 5
    · rw [if_pos t5] at h
      cases h
    rw [if_neg t5] at h
    by_cases t6 : tag = 6
    · rw [if_pos t6] at h
      repeat' split at h
      all_goals cases h
    rw [if_neg t6] at h
    cases h

/-- C6 evidence: the one-byte tags are not unique. Tag 12, followed by a 9-byte
TransferChecked payload, decodes to TransferChecked (the first of the two tag-12
arms of TokenInstruction::unpack), and no instruction buffer at all decodes to
ThawAccount, because the later `12 => ThawAccount` arm is unreachable; the empty
buffer and tags outside the supported set do fail with InvalidInstruction. -/
theorem C6_tag12_collision :
    TokenInstruction.unpack (12 :: 0 :: 0 :: 0 :: 0 :: 0 :: 0 :: 0 :: 0 :: [0])
      = .ok (.TransferChecked 0 0) ∧
    (∀ bs : List Byte, isThawResult (TokenInstruction.unpack bs) = false) ∧
    TokenInstruction.unpack [] = .error (.Custom .InvalidInstruction) ∧
    TokenInstruction.unpack [4] = .error (.Custom .InvalidInstruction) ∧
    TokenInstruction.unpack [255] = .error (.Custom .InvalidInstruction) := by
  refine ⟨by decide, ?_, by decide, by decide, by decide⟩
  intro bs
  cases ht : TokenInstruction.unpack bs with
  | error e => rfl
  | ok inst =>
    cases inst <;> try rfl
    exact (unpack_ne_thaw bs ht).elim

/-- C5: a one-byte instruction buffer with tag 5 decodes to Revoke, and the
(spec-modelled) Revoke handler, run on a program-owned account whose record is
initialized and not frozen, with the supplied authority equal to the stored
owner and signing, succeeds and stores the record with delegate = None and
delegated_amount = 0. -/
theorem C5_revoke_clears_delegate :
    TokenInstruction.unpack [5] = .ok .Revoke ∧
    ∀ (info owner_info : AccountInfo) (A : Account),
      info.owner = tokenProgramId →
      Account.unpack info.data = .ok A →
      A.is_frozen = false →
      A.owner = owner_info.key →
      owner_info.is_signer = true →
      process_revoke info owner_info =
        .ok { info with data := (Account.pack_into_slice
                ({ A with delegate := none, delegated_amount := 0 }) info.data) } ∧
      Account.unpack_unchecked
          (Account.pack_into_slice ({ A with delegate := none, delegated_amount := 0 })
            info.data)
        = .ok { A with delegate := none, delegated_amount := 0 } := by
  refine ⟨by decide, ?_⟩
  intro info owner_info A hpid hA hfz hown hsig
  obtain ⟨hAs, hAi, hAv, hlen⟩ := Account.unpack_ok_elim _ _ hA
  have hv2 : ({ A with delegate := none, delegated_amount := 0 } : Account).Valid := by
    obtain ⟨h1, h2, h3, h4, _, _⟩ := hAv
    exact ⟨h1, h2, h3, h4, trivial, by norm_num⟩
  constructor
  · have hc : check_program_account info = .ok () := by
      unfold check_program_account
      rw [if_neg (not_not_intro hpid)]
    simp [process_revoke, hc, hA, hAi, hfz, hown, hsig, Account.pack_ok _ _ hlen]
  · exact Account.unpack_unchecked_pack _ hv2 _ hlen

set_option maxRecDepth 8192 in
/-- C5 at a concrete input: revoking a delegation of 500 on a concrete account. -/
theorem C5_revoke_clears_delegate_witness :
    process_revoke (mkAcctInfo wSrcKey wApprovedAccount) (wSigner wOwnerKey) =
      .ok { mkAcctInfo wSrcKey wApprovedAccount with
            data := (Account.pack_into_slice
              ({ wApprovedAccount with delegate := none, delegated_amount := 0 })
              (mkAcctInfo wSrcKey wApprovedAccount).data) } :=
  (C5_revoke_clears_delegate.2 (mkAcctInfo wSrcKey wApprovedAccount)
    (wSigner wOwnerKey) wApprovedAccount (by decide) (by decide) (by decide)
    (by decide) (by decide)).1

set_option maxRecDepth 8192 in
/-- C7 counterexample: a native account recording amount 5 with reserve 1 on an
info holding 0 lamports. 0 minus 1 is below the stored amount on any reading, yet
the handler returns Overflow (the failed checked_sub), not InvalidState. -/
theorem C7_sync_native_underflow_counterexample :
    process_sync_native (mkAcctInfo wSrcKey wNativeAccount)
      = .error (.Custom .Overflow) ∧
    ((process_sync_native (mkAcctInfo wSrcKey wNativeAccount)
      = .error (.Custom .InvalidState)) = False) :=
  ⟨by decide, eq_false (by decide)⟩

/-- C7 (amended): for a SyncNative invocation on a program-owned account whose
record decodes: if is_native is None it fails NonNativeNotSupported; if
is_native = Some(reserve) and lamports < reserve it fails Overflow; if
reserve ≤ lamports and lamports − reserve is below the stored amount it fails
InvalidState; otherwise it succeeds, stores amount = lamports − reserve, and the
new amount is not below the old one. -/
theorem C7_sync_native_behavior :
    ∀ (info : AccountInfo) (A : Account),
      info.owner = tokenProgramId →
      Account.unpack info.data = .ok A →
      info.lamports < 2 ^ 64 →
      (A.is_native = none →
        process_sync_native info = .error (.Custom .NonNativeNotSupported)) ∧
      (∀ reserve, A.is_native = some reserve → info.lamports < reserve →
        process_sync_native info = .error (.Custom .Overflow)) ∧
      (∀ reserve, A.is_native = some reserve → reserve ≤ info.lamports →
        info.lamports - reserve < A.amount →
        process_sync_native info = .error (.Custom .InvalidState)) ∧
      (∀ reserve, A.is_native = some reserve → reserve ≤ info.lamports →
        A.amount ≤ info.lamports - reserve →
        process_sync_native info =
          .ok { info with data := (Account.pack_into_slice
            ({ A with amount := info.lamports - reserve }) info.data) } ∧
        Account.unpack_unchecked (Account.pack_into_slice
            ({ A with amount := info.lamports - reserve }) info.data)
          = .ok ({ A with amount := info.lamports - reserve }) ∧
        A.amount ≤ info.lamports - reserve) := by
  intro info A hpid hA hl64
  obtain ⟨hAs, hAi, hAv, hlen⟩ := Account.unpack_ok_elim _ _ hA
  have hc : check_program_account info = .ok () := by
    unfold check_program_account
    rw [if_neg (not_not_intro hpid)]
  refine ⟨?_, ?_, ?_, ?_⟩
  · intro hn
    simp [process_sync_native, hc, hA, hn]
  · intro reserve hn hlt
    have hsub : checked_sub info.lamports reserve = none := by
      unfold checked_sub
      rw [if_neg (by omega)]
    simp [process_sync_native, hc, hA, hn, hsub]
  · intro reserve hn hge hlt
    have hsub : checked_sub info.lamports reserve = some (info.lamports - reserve) := by
      unfold checked_sub
      rw [if_pos hge]
    simp [process_sync_native, hc, hA, hn, hsub, hlt]
  · intro reserve hn hge hge2
    have hsub : checked_sub info.lamports reserve = some (info.lamports - reserve) := by
      unfold checked_sub
      rw [if_pos hge]
    have hnew : ¬ (info.lamports - reserve < A.amount) := not_lt.mpr hge2
    have hv2 : ({ A with amount := info.lamports - reserve } : Account).Valid := by
      obtain ⟨h1, h2, h3, h4, h5, h6⟩ := hAv
      refine ⟨h1, h2, ?_, h4, h5, h6⟩
      show info.lamports - reserve < 2 ^ 64
      omega
    refine ⟨?_, Account.unpack_unchecked_pack _ hv2 _ hlen, hge2⟩
    simp [process_sync_native, hc, hA, hn, hsub, hnew, Account.pack_ok _ _ hlen]

set_option maxRecDepth 8192 in
/-- C7 at a concrete input: syncing the native account with 10 lamports on
deposit raises its amount from 5 to 10 − 1. -/
theorem C7_sync_native_behavior_witness :
    process_sync_native wNativeInfo10 =
      .ok { wNativeInfo10 with data := (Account.pack_into_slice
        ({ wNativeAccount with amount := wNativeInfo10.lamports - 1 })
        wNativeInfo10.data) } :=
  ((C7_sync_native_behavior wNativeInfo10 wNativeAccount (by decide) (by decide)
    (by decide)).2.2.2 1 (by decide) (by decide) (by decide)).1

/-- C4: a Transfer whose source and destination are the same account succeeds and
returns the buffers untouched, for any requested amount — including one above the
account's balance — and without touching the delegated allowance, provided the
owner-or-delegate authority resolution of §4.3 passes. -/
theorem C4_self_transfer_noop :
    ∀ (source authority : AccountInfo) (A : Account) (amount : Nat),
      source.owner = tokenProgramId →
      source.is_writable = true →
      Account.unpack source.data = .ok A →
      A.is_frozen = false →
      authority_resolves A authority amount = true →
      process_transfer source source authority amount = .ok (source, source) := by
  intro source authority A amount hpid hw hA hfz hauth
  obtain ⟨hAs, hAi, hAv, hlen⟩ := Account.unpack_ok_elim _ _ hA
  have hc : check_program_account source = .ok () := by
    unfold check_program_account
    rw [if_neg (not_not_intro hpid)]
  unfold authority_resolves at hauth
  cases hdel : A.delegate with
  | none =>
    rw [hdel] at hauth
    simp at hauth
    obtain ⟨hown, hsig⟩ := hauth
    simp [process_transfer, hc, hw, hA, hAi, hfz, hdel, hown, hsig]
  | some d =>
    rw [hdel] at hauth
    by_cases hd : d = authority.key
    · simp [hd] at hauth
      obtain ⟨hsig, hle⟩ := hauth
      simp [process_transfer, hc, hw, hA, hAi, hfz, hdel, hd, hsig, not_lt.mpr hle]
    · simp [hd] at hauth
      obtain ⟨hown, hsig⟩ := hauth
      simp [process_transfer, hc, hw, hA, hAi, hfz, hdel, hd, hown, hsig]

set_option maxRecDepth 8192 in
/-- C4 at a concrete input: a self-transfer of 1000 from an account holding 60
succeeds and changes nothing. -/
theorem C4_self_transfer_noop_witness :
    process_transfer (mkAcctInfo wSrcKey wAccount) (mkAcctInfo wSrcKey wAccount)
      (wSigner wOwnerKey) 1000 = .ok (mkAcctInfo wSrcKey wAccount, mkAcctInfo wSrcKey wAccount) :=
  C4_self_transfer_noop (mkAcctInfo wSrcKey wAccount) (wSigner wOwnerKey) wAccount 1000
    (by decide) (by decide) (by decide) (by decide) (by decide)

/-- C2: a Transfer between distinct accounts, authorized by the owner, whose
amount exceeds the source balance fails with InsufficientFunds, and a Burn whose
amount exceeds the account balance fails with InsufficientFunds; in either case
the applied buffers are the originals — every failing path returns before any
Account::pack / Mint::pack call. -/
theorem C2_insufficient_funds_rejected :
    (∀ (source destination authority : AccountInfo) (A B : Account) (amount : Nat),
      source.owner = tokenProgramId → destination.owner = tokenProgramId →
      source.is_writable = true → destination.is_writable = true →
      Account.unpack source.data = .ok A →
      Account.unpack destination.data = .ok B →
      A.is_frozen = false → B.is_frozen = false →
      A.mint = B.mint →
      (∀ d, A.delegate = some d → d ≠ authority.key) →
      A.owner = authority.key → authority.is_signer = true →
      source.key ≠ destination.key →
      A.amount < amount →
      process_transfer source destination authority amount
        = .error (.Custom .InsufficientFunds) ∧
      transferApply source destination authority amount = (source, destination)) ∧
    (∀ (account_info mint_info authority : AccountInfo) (A : Account) (M : Mint)
        (amount : Nat),
      account_info.owner = tokenProgramId → mint_info.owner = tokenProgramId →
      account_info.is_writable = true → mint_info.is_writable = true →
      Account.unpack account_info.data = .ok A →
      Mint.unpack mint_info.data = .ok M →
      A.is_frozen = false →
      A.mint = mint_info.key →
      A.owner = authority.key → authority.is_signer = true →
      A.amount < amount →
      process_burn account_info mint_info authority amount
        = .error (.Custom .InsufficientFunds) ∧
      burnApply account_info mint_info authority amount = (account_info, mint_info)) := by
  constructor
  · intro source destination authority A B amount hpid1 hpid2 hw1 hw2 hA hB hfz1 hfz2
      hmint hnodel hown hsig hkey hlt
    obtain ⟨hAs, hAi, hAv, hlen1⟩ := Account.unpack_ok_elim _ _ hA
    obtain ⟨hBs, hBi, hBv, hlen2⟩ := Account.unpack_ok_elim _ _ hB
    have hc1 : check_program_account source = .ok () := by
      unfold check_program_account
      rw [if_neg (not_not_intro hpid1)]
    have hc2 : check_program_account destination = .ok () := by
      unfold check_program_account
      rw [if_neg (not_not_intro hpid2)]
    have herr : process_transfer source destination authority amount
        = .error (.Custom .InsufficientFunds) := by
      cases hdel : A.delegate with
      | none =>
        simp [process_transfer, hc1, hc2, hw1, hw2, hA, hB, hAi, hBi, hfz1, hfz2,
              hmint, hdel, hown, hsig, hkey, hlt]
      | some d =>
        have hd : d ≠ authority.key := hnodel d hdel
        simp [process_transfer, hc1, hc2, hw1, hw2, hA, hB, hAi, hBi, hfz1, hfz2,
              hmint, hdel, hd, hown, hsig, hkey, hlt]
    exact ⟨herr, by simp [transferApply, herr]⟩
  · intro account_info mint_info authority A M amount hpid1 hpid2 hw1 hw2 hA hM hfz
      hmint hown hsig hlt
    obtain ⟨hAs, hAi, hAv, hlen1⟩ := Account.unpack_ok_elim _ _ hA
    obtain ⟨hMs, hMi, hMv, hlen2⟩ := Mint.unpack_ok_elim_mint _ _ hM
    have hc1 : check_program_account account_info = .ok () := by
      unfold check_program_account
      rw [if_neg (not_not_intro hpid1)]
    have hc2 : check_program_account mint_info = .ok () := by
      unfold check_program_account
      rw [if_neg (not_not_intro hpid2)]
    have herr : process_burn account_info mint_info authority amount
        = .error (.Custom .InsufficientFunds) := by
      simp [process_burn, hc1, hc2, hw1, hw2, hA, hM, hAi, hMi, hfz, hmint,
            hown, hsig, hlt]
    exact ⟨herr, by simp [burnApply, herr]⟩

set_option maxRecDepth 8192 in
/-- C2 at concrete inputs: transferring or burning 1000 from an account holding
60 fails with InsufficientFunds. -/
theorem C2_insufficient_funds_rejected_witness :
    process_transfer (mkAcctInfo wSrcKey wAccount) (mkAcctInfo wDstKey wAccount)
      (wSigner wOwnerKey) 1000 = .error (.Custom .InsufficientFunds) ∧
    process_burn (mkAcctInfo wSrcKey wAccount) (mkMintInfo wMintKey wMint)
      (wSigner wOwnerKey) 1000 = .error (.Custom .InsufficientFunds) :=
  ⟨(C2_insufficient_funds_rejected.1 (mkAcctInfo wSrcKey wAccount)
      (mkAcctInfo wDstKey wAccount) (wSigner wOwnerKey) wAccount wAccount 1000
      (by decide) (by decide) (by decide) (by decide) (by decide) (by decide)
      (by decide) (by decide) (by decide)
      (by intro d hd; simp [wAccount] at hd)
      (by decide) (by decide) (by decide) (by decide)).1,
   (C2_insufficient_funds_rejected.2 (mkAcctInfo wSrcKey wAccount)
      (mkMintInfo wMintKey wMint) (wSigner wOwnerKey) wAccount wMint 1000
      (by decide) (by decide) (by decide) (by decide) (by decide) (by decide)
      (by decide) (by decide) (by decide) (by decide) (by decide)).1⟩

/-- C3: a Transfer between distinct accounts authorized by the stored delegate
(the supplied signer equals delegate) moves the amount, decrements
delegated_amount by exactly that amount, and clears delegate to None exactly when
the remaining delegated_amount is zero. -/
theorem C3_delegate_decay :
    ∀ (source destination authority : AccountInfo) (A B : Account) (amount : Nat),
      source.owner = tokenProgramId → destination.owner = tokenProgramId →
      source.is_writable = true → destination.is_writable = true →
      Account.unpack source.data = .ok A →
      Account.unpack destination.data = .ok B →
      A.is_frozen = false → B.is_frozen = false →
      A.mint = B.mint →
      A.delegate = some authority.key →
      authority.is_signer = true →
      amount ≤ A.delegated_amount →
      source.key ≠ destination.key →
      amount ≤ A.amount →
      B.amount + amount < 2 ^ 64 →
      process_transfer source destination authority amount =
        .ok ({ source with data := (Account.pack_into_slice
                (A.afterDelegateTransfer amount) source.data) },
             { destination with data := (Account.pack_into_slice
                (B.credited amount) destination.data) }) ∧
      Account.unpack_unchecked
          (Account.pack_into_slice (A.afterDelegateTransfer amount) source.data)
        = .ok (A.afterDelegateTransfer amount) ∧
      Account.unpack_unchecked
          (Account.pack_into_slice (B.credited amount) destination.data)
        = .ok (B.credited amount) := by
  intro source destination authority A B amount hpid1 hpid2 hw1 hw2 hA hB hfz1 hfz2
    hmint hdel hsig hdle hkey hble hovf
  obtain ⟨hAs, hAi, hAv, hlen1⟩ := Account.unpack_ok_elim _ _ hA
  obtain ⟨hBs, hBi, hBv, hlen2⟩ := Account.unpack_ok_elim _ _ hB
  have hc1 : check_program_account source = .ok () := by
    unfold check_program_account
    rw [if_neg (not_not_intro hpid1)]
  have hc2 : check_program_account destination = .ok () := by
    unfold check_program_account
    rw [if_neg (not_not_intro hpid2)]
  have hsubd : checked_sub A.delegated_amount amount
      = some (A.delegated_amount - amount) := by
    unfold checked_sub
    rw [if_pos hdle]
  have hsuba : checked_sub A.amount amount = some (A.amount - amount) := by
    unfold checked_sub
    rw [if_pos hble]
  have hadd : checked_add B.amount amount = some (B.amount + amount) := by
    unfold checked_add
    rw [if_pos hovf]
  have hvA : (A.afterDelegateTransfer amount).Valid := by
    obtain ⟨h1, h2, h3, h4, h5, h6⟩ := hAv
    refine ⟨h1, h2, ?_, h4, ?_, ?_⟩
    · show A.amount - amount < 2 ^ 64
      omega
    · show optKeyValid (if A.delegated_amount - amount = 0 then none else A.delegate)
      split
      · trivial
      · exact h5
    · show A.delegated_amount - amount < 2 ^ 64
      omega
  have hvB : (B.credited amount).Valid := by
    obtain ⟨h1, h2, h3, h4, h5, h6⟩ := hBv
    exact ⟨h1, h2, hovf, h4, h5, h6⟩
  refine ⟨?_, Account.unpack_unchecked_pack _ hvA _ hlen1,
          Account.unpack_unchecked_pack _ hvB _ hlen2⟩
  simp [process_transfer, Account.afterDelegateTransfer, Account.credited,
        hc1, hc2, hw1, hw2, hA, hB, hAi, hBi, hfz1, hfz2,
        hmint, hdel, hsig, not_lt.mpr hdle, hkey, not_lt.mpr hble, hsubd, hsuba,
        hadd, Account.pack_ok _ _ hlen1, Account.pack_ok _ _ hlen2]

set_option maxRecDepth 8192 in
/-- C3 at a concrete input: after Approve(500), a delegate transfer of 200 from an
account holding 1000 leaves delegated_amount 300 with the delegate still set,
and a transfer consuming the remaining 300-...-500 allowance clears the delegate. -/
theorem C3_delegate_decay_witness :
    process_transfer (mkAcctInfo wSrcKey wRichApproved) (mkAcctInfo wDstKey wAccount)
      (wSigner wDelegateKey) 200 =
      .ok ({ mkAcctInfo wSrcKey wRichApproved with
             data := (Account.pack_into_slice
               (wRichApproved.afterDelegateTransfer 200)
               (mkAcctInfo wSrcKey wRichApproved).data) },
           { mkAcctInfo wDstKey wAccount with
             data := (Account.pack_into_slice
               (wAccount.credited 200)
               (mkAcctInfo wDstKey wAccount).data) }) ∧
    (wRichApproved.afterDelegateTransfer 200).delegated_amount = 300 ∧
    (wRichApproved.afterDelegateTransfer 200).delegate = some wDelegateKey ∧
    (wRichApproved.afterDelegateTransfer 500).delegate = none :=
  ⟨(C3_delegate_decay (mkAcctInfo wSrcKey wRichApproved) (mkAcctInfo wDstKey wAccount)
      (wSigner wDelegateKey) wRichApproved wAccount 200
      (by decide) (by decide) (by decide) (by decide) (by decide) (by decide)
      (by decide) (by decide) (by decide) (by decide) (by decide) (by decide)
      (by decide) (by decide) (by decide)).1,
   by decide, by decide, by decide⟩

/-- C8: FreezeAccount and ThawAccount on a program-owned, writable, initialized
account: freezing an already-frozen account and thawing a non-frozen one fail
InvalidState; a native account is rejected with NonNativeNotSupported; with the
mint matching and decoded, a missing freeze_authority fails MintCannotFreeze, a
mismatched key or a non-signing authority fails InvalidOwner, and on success
exactly the is_frozen flag is toggled in the stored record. -/
theorem C8_freeze_thaw_behavior :
    ∀ (account_info mint_info authority : AccountInfo) (A : Account) (M : Mint),
      account_info.owner = tokenProgramId →
      account_info.is_writable = true →
      Account.unpack account_info.data = .ok A →
      (A.is_frozen = true →
        process_freeze_account account_info mint_info authority
          = .error (.Custom .InvalidState)) ∧
      (A.is_frozen = false → A.is_native.isSome = true →
        process_freeze_account account_info mint_info authority
          = .error (.Custom .NonNativeNotSupported)) ∧
      (A.is_frozen = false → A.is_native = none → A.mint = mint_info.key →
        Mint.unpack mint_info.data = .ok M →
        (M.freeze_authority = none →
          process_freeze_account account_info mint_info authority
            = .error (.Custom .MintCannotFreeze)) ∧
        (∀ k, M.freeze_authority = some k →
          (k ≠ authority.key ∨ authority.is_signer = false) →
          process_freeze_account account_info mint_info authority
            = .error (.Custom .InvalidOwner)) ∧
        (M.freeze_authority = some authority.key → authority.is_signer = true →
          process_freeze_account account_info mint_info authority =
            .ok { account_info with data := (Account.pack_into_slice
              ({ A with is_frozen := true }) account_info.data) } ∧
          Account.unpack_unchecked (Account.pack_into_slice
              ({ A with is_frozen := true }) account_info.data)
            = .ok ({ A with is_frozen := true }))) ∧
      (A.is_frozen = false →
        process_thaw_account account_info mint_info authority
          = .error (.Custom .InvalidState)) ∧
      (A.is_frozen = true → A.is_native.isSome = true →
        process_thaw_account account_info mint_info authority
          = .error (.Custom .NonNativeNotSupported)) ∧
      (A.is_frozen = true → A.is_native = none → A.mint = mint_info.key →
        Mint.unpack mint_info.data = .ok M →
        (M.freeze_authority = none →
          process_thaw_account account_info mint_info authority
            = .error (.Custom .MintCannotFreeze)) ∧
        (∀ k, M.freeze_authority = some k →
          (k ≠ authority.key ∨ authority.is_signer = false) →
          process_thaw_account account_info mint_info authority
            = .error (.Custom .InvalidOwner)) ∧
        (M.freeze_authority = some authority.key → authority.is_signer = true →
          process_thaw_account account_info mint_info authority =
            .ok { account_info with data := (Account.pack_into_slice
              ({ A with is_frozen := false }) account_info.data) } ∧
          Account.unpack_unchecked (Account.pack_into_slice
              ({ A with is_frozen := false }) account_info.data)
            = .ok ({ A with is_frozen := false }))) := by
  intro account_info mint_info authority A M hpid hw hA
  obtain ⟨hAs, hAi, hAv, hlen⟩ := Account.unpack_ok_elim _ _ hA
  have hc : check_program_account account_info = .ok () := by
    unfold check_program_account
    rw [if_neg (not_not_intro hpid)]
  have hvfz : ∀ b : Bool, ({ A with is_frozen := b } : Account).Valid := by
    intro b
    obtain ⟨h1, h2, h3, h4, h5, h6⟩ := hAv
    exact ⟨h1, h2, h3, h4, h5, h6⟩
  refine ⟨?_, ?_, ?_, ?_, ?_, ?_⟩
  · intro hfz
    simp [process_freeze_account, hc, hw, hA, hAi, hfz]
  · intro hfz hnat
    simp [process_freeze_account, hc, hw, hA, hAi, hfz, hnat]
  · intro hfz hnat hmint hM
    obtain ⟨hMs, hMi, hMv, hlen2⟩ := Mint.unpack_ok_elim_mint _ _ hM
    refine ⟨?_, ?_, ?_⟩
    · intro hfa
      simp [process_freeze_account, hc, hw, hA, hAi, hfz, hnat, hmint, hM, hfa]
    · intro k hfa hbad
      rcases hbad with hbad | hbad
      · simp [process_freeze_account, hc, hw, hA, hAi, hfz, hnat, hmint, hM, hfa, hbad]
      · by_cases hk : k = authority.key
        · simp [process_freeze_account, hc, hw, hA, hAi, hfz, hnat, hmint, hM, hfa,
                hk, hbad]
        · simp [process_freeze_account, hc, hw, hA, hAi, hfz, hnat, hmint, hM, hfa, hk]
    · intro hfa hsig
      refine ⟨?_, Account.unpack_unchecked_pack _ (hvfz true) _ hlen⟩
      simp [process_freeze_account, hc, hw, hA, hAi, hfz, hnat, hmint, hM, hfa, hsig,
            Account.pack_ok _ _ hlen]
  · intro hfz
    simp [process_thaw_account, hc, hw, hA, hAi, hfz]
  · intro hfz hnat
    simp [process_thaw_account, hc, hw, hA, hAi, hfz, hnat]
  · intro hfz hnat hmint hM
    obtain ⟨hMs, hMi, hMv, hlen2⟩ := Mint.unpack_ok_elim_mint _ _ hM
    refine ⟨?_, ?_, ?_⟩
    · intro hfa
      simp [process_thaw_account, hc, hw, hA, hAi, hfz, hnat, hmint, hM, hfa]
    · intro k hfa hbad
      rcases hbad with hbad | hbad
      · simp [process_thaw_account, hc, hw, hA, hAi, hfz, hnat, hmint, hM, hfa, hbad]
      · by_cases hk : k = authority.key
        · simp [process_thaw_account, hc, hw, hA, hAi, hfz, hnat, hmint, hM, hfa,
                hk, hbad]
        · simp [process_thaw_account, hc, hw, hA, hAi, hfz, hnat, hmint, hM, hfa, hk]
    · intro hfa hsig
      refine ⟨?_, Account.unpack_unchecked_pack _ (hvfz false) _ hlen⟩
      simp [process_thaw_account, hc, hw, hA, hAi, hfz, hnat, hmint, hM, hfa, hsig,
            Account.pack_ok _ _ hlen]

set_option maxRecDepth 8192 in
/-- C8 at concrete inputs: the freeze authority freezes the unfrozen concrete
account and thaws the frozen one; each success stores the record with only
is_frozen toggled. -/
theorem C8_freeze_thaw_behavior_witness :
    process_freeze_account (mkAcctInfo wSrcKey wAccount) (mkMintInfo wMintKey wMint)
      (wSigner wFreezeKey) =
      .ok { mkAcctInfo wSrcKey wAccount with data := (Account.pack_into_slice
        wFrozenAccount (mkAcctInfo wSrcKey wAccount).data) } ∧
    process_thaw_account (mkAcctInfo wSrcKey wFrozenAccount)
      (mkMintInfo wMintKey wMint) (wSigner wFreezeKey) =
      .ok { mkAcctInfo wSrcKey wFrozenAccount with data := (Account.pack_into_slice
        wAccount (mkAcctInfo wSrcKey wFrozenAccount).data) } :=
  ⟨(((C8_freeze_thaw_behavior (mkAcctInfo wSrcKey wAccount) (mkMintInfo wMintKey wMint)
      (wSigner wFreezeKey) wAccount wMint (by decide) (by decide) (by decide)).2.2.1
      (by decide) (by decide) (by decide) (by decide)).2.2 (by decide) (by decide)).1,
   (((C8_freeze_thaw_behavior (mkAcctInfo wSrcKey wFrozenAccount)
      (mkMintInfo wMintKey wMint) (wSigner wFreezeKey) wFrozenAccount wMint
      (by decide) (by decide) (by decide)).2.2.2.2.2
      (by decide) (by decide) (by decide) (by decide)).2.2 (by decide) (by decide)).1⟩

/-! ### Handler inversion lemmas for the conservation argument -/

theorem check_program_account_mkAcctInfo (k : Pubkey) (a : Account) :
    check_program_account (mkAcctInfo k a) = .ok () := by
  unfold check_program_account
  rw [if_neg (show ¬((mkAcctInfo k a).owner ≠ tokenProgramId) from fun h => h rfl)]

theorem check_program_account_mkMintInfo (k : Pubkey) (m : Mint) :
    check_program_account (mkMintInfo k m) = .ok () := by
  unfold check_program_account
  rw [if_neg (show ¬((mkMintInfo k m).owner ≠ tokenProgramId) from fun h => h rfl)]

theorem Account.valid_of_unpack_unchecked (src : List Byte) (a : Account)
    (h : Account.unpack_unchecked src = .ok a) : a.Valid := by
  unfold Account.unpack_unchecked at h
  by_cases hl : src.length = Account.LEN
  · rw [if_pos hl] at h
    exact Account.valid_of_unpack_from_slice _ _ h
  · rw [if_neg hl] at h
    cases h

theorem Mint.valid_of_unpack_unchecked_mint (src : List Byte) (m : Mint)
    (h : Mint.unpack_unchecked src = .ok m) : m.Valid := by
  unfold Mint.unpack_unchecked at h
  by_cases hl : src.length = Mint.LEN
  · rw [if_pos hl] at h
    exact Mint.valid_of_unpack_from_slice_mint _ _ h
  · rw [if_neg hl] at h
    cases h

theorem Account.unpack_mkAcctInfo (k : Pubkey) (a : Account) (hv : a.Valid)
    (hi : a.is_initialized = true) :
    Account.unpack (mkAcctInfo k a).data = .ok a := by
  show Account.unpack (Account.pack_into_slice a (List.replicate 181 0)) = .ok a
  exact Account.unpack_pack a hv hi (List.replicate 181 0) (List.length_replicate 181 0)

theorem Account.unpack_mkAcctInfo_uninit (k : Pubkey) (a : Account) (hv : a.Valid)
    (hi : a.is_initialized = false) :
    Account.unpack (mkAcctInfo k a).data = .error .UninitializedAccount := by
  show Account.unpack (Account.pack_into_slice a (List.replicate 181 0)) = _
  unfold Account.unpack
  rw [Account.unpack_unchecked_pack a hv (List.replicate 181 0) (List.length_replicate 181 0)]
  simp [hi]

theorem Mint.unpack_mkMintInfo (k : Pubkey) (m : Mint) (hv : m.Valid)
    (hi : m.is_initialized = true) :
    Mint.unpack (mkMintInfo k m).data = .ok m := by
  show Mint.unpack (Mint.pack_into_slice m (List.replicate 82 0)) = .ok m
  exact Mint.unpack_pack_mint m hv hi (List.replicate 82 0) (List.length_replicate 82 0)

theorem Mint.unpack_mkMintInfo_uninit (k : Pubkey) (m : Mint) (hv : m.Valid)
    (hi : m.is_initialized = false) :
    Mint.unpack (mkMintInfo k m).data = .error .UninitializedAccount := by
  show Mint.unpack (Mint.pack_into_slice m (List.replicate 82 0)) = _
  unfold Mint.unpack
  rw [Mint.unpack_unchecked_pack_mint m hv (List.replicate 82 0) (List.length_replicate 82 0)]
  simp [hi]

theorem mkAcctInfo_data_length (k : Pubkey) (a : Account) (hv : a.Valid) :
    (mkAcctInfo k a).data.length = 181 :=
  Account.pack_into_slice_length a hv (List.replicate 181 0) (List.length_replicate 181 0)

theorem mkMintInfo_data_length (k : Pubkey) (m : Mint) (hv : m.Valid) :
    (mkMintInfo k m).data.length = 82 :=
  Mint.pack_into_slice_length_mint m hv (List.replicate 82 0) (List.length_replicate 82 0)

set_option maxHeartbeats 1000000 in
/-- Inversion of a successful transfer on freshly packed, well-typed inputs:
either a self-transfer that returns both infos unchanged, or a genuine move in
which the output buffers decode to the debited source and the credited
destination, both still initialized and of one mint. -/
theorem process_transfer_inversion (kA kB : Pubkey) (A B : Account)
    (authority : AccountInfo) (amount : Nat) (s' d' : AccountInfo)
    (hvA : A.Valid) (hvB : B.Valid)
    (hrun : process_transfer (mkAcctInfo kA A) (mkAcctInfo kB B) authority amount
      = .ok (s', d')) :
    (kA = kB ∧ s' = mkAcctInfo kA A ∧ d' = mkAcctInfo kB B) ∨
    (kA ≠ kB ∧ A.is_initialized = true ∧ B.is_initialized = true ∧
     A.mint = B.mint ∧ amount ≤ A.amount ∧
     (∃ A', Account.unpack_unchecked s'.data = .ok A' ∧
        A'.amount + amount = A.amount ∧ A'.is_initialized = true) ∧
     (∃ B', Account.unpack_unchecked d'.data = .ok B' ∧
        B'.amount = B.amount + amount ∧ B'.is_initialized = true)) := by
  have hc1 := check_program_account_mkAcctInfo kA A
  have hc2 := check_program_account_mkAcctInfo kB B
  have hw1 : (mkAcctInfo kA A).is_writable = true := rfl
  have hw2 : (mkAcctInfo kB B).is_writable = true := rfl
  have hk1 : (mkAcctInfo kA A).key = kA := rfl
  have hk2 : (mkAcctInfo kB B).key = kB := rfl
  have hpkA : ∀ x : Account, Account.pack x (mkAcctInfo kA A).data
      = .ok (Account.pack_into_slice x (mkAcctInfo kA A).data) := by
    intro x
    unfold Account.pack
    rw [if_pos (show (mkAcctInfo kA A).data.length = Account.LEN from
          mkAcctInfo_data_length kA A hvA)]
  have hpkB : ∀ x : Account, Account.pack x (mkAcctInfo kB B).data
      = .ok (Account.pack_into_slice x (mkAcctInfo kB B).data) := by
    intro x
    unfold Account.pack
    rw [if_pos (show (mkAcctInfo kB B).data.length = Account.LEN from
          mkAcctInfo_data_length kB B hvB)]
  by_cases hiniA : A.is_initialized = true
  case neg =>
    rw [Bool.not_eq_true] at hiniA
    have hupA := Account.unpack_mkAcctInfo_uninit kA A hvA hiniA
    simp [process_transfer, hc1, hc2, hw1, hw2, hupA] at hrun
  case pos =>
  have hupA := Account.unpack_mkAcctInfo kA A hvA hiniA
  by_cases hiniB : B.is_initialized = true
  case neg =>
    rw [Bool.not_eq_true] at hiniB
    have hupB := Account.unpack_mkAcctInfo_uninit kB B hvB hiniB
    simp [process_transfer, hc1, hc2, hw1, hw2, hupA, hupB, hiniA] at hrun
    split at hrun <;> cases hrun
  case pos =>
  have hupB := Account.unpack_mkAcctInfo kB B hvB hiniB
  by_cases hfzA : A.is_frozen = true
  case pos =>
    simp [process_transfer, hc1, hc2, hw1, hw2, hupA, hupB, hiniA, hiniB, hfzA] at hrun
  case neg =>
  rw [Bool.not_eq_true] at hfzA
  by_cases hfzB : B.is_frozen = true
  case pos =>
    simp [process_transfer, hc1, hc2, hw1, hw2, hupA, hupB, hiniA, hiniB, hfzA,
      hfzB] at hrun
  case neg =>
  rw [Bool.not_eq_true] at hfzB
  by_cases hmint : A.mint = B.mint
  case neg =>
    simp [process_transfer, hc1, hc2, hw1, hw2, hupA, hupB, hiniA, hiniB, hfzA, hfzB,
      hmint] at hrun
  case pos =>
  by_cases hkey : kA = kB
  case pos =>
    left
    refine ⟨hkey, ?_⟩
    simp [process_transfer, hc1, hc2, hw1, hw2, hupA, hupB, hk1, hk2, hiniA,
      hiniB, hfzA, hfzB, hmint, eq_true hkey] at hrun
    repeat' split at hrun
    all_goals try cases hrun
    all_goals exact ⟨rfl, rfl⟩
  case neg =>
    cases hdel : A.delegate with
    | none =>
      by_cases hown : A.owner = authority.key
      case neg =>
        simp [process_transfer, hc1, hc2, hw1, hw2, hupA, hupB, hk1, hk2, hiniA, hiniB,
          hfzA, hfzB, hmint, hkey, hdel, hown] at hrun
      case pos =>
      by_cases hsig : authority.is_signer = true
      case neg =>
        rw [Bool.not_eq_true] at hsig
        simp [process_transfer, hc1, hc2, hw1, hw2, hupA, hupB, hk1, hk2, hiniA, hiniB,
          hfzA, hfzB, hmint, hkey, hdel, hown, hsig] at hrun
      case pos =>
      by_cases hbal : A.amount < amount
      case pos =>
        simp [process_transfer, hc1, hc2, hw1, hw2, hupA, hupB, hk1, hk2, hiniA, hiniB,
          hfzA, hfzB, hmint, hkey, hdel, hown, hsig, hbal] at hrun
      case neg =>
        have hle : amount ≤ A.amount := Nat.le_of_not_lt hbal
        have hsub : checked_sub A.amount amount = some (A.amount - amount) := by
          unfold checked_sub
          rw [if_pos hle]
        by_cases hovf : B.amount + amount < 2 ^ 64
        case neg =>
          have hadd : checked_add B.amount amount = none := by
            unfold checked_add
            rw [if_neg hovf]
          simp [process_transfer, hc1, hc2, hw1, hw2, hupA, hupB, hk1, hk2, hiniA, hiniB,
            hfzA, hfzB, hmint, hkey, hdel, hown, hsig, hbal, hsub, hadd] at hrun
        case pos =>
          have hadd : checked_add B.amount amount = some (B.amount + amount) := by
            unfold checked_add
            rw [if_pos hovf]
          simp [process_transfer, hc1, hc2, hw1, hw2, hupA, hupB, hk1, hk2, hiniA, hiniB,
            hfzA, hfzB, hmint, hkey, hdel, hown, hsig, hbal, hsub, hadd, hpkA, hpkB] at hrun
          obtain ⟨h1, h2⟩ := hrun
          subst h1
          subst h2
          refine Or.inr ⟨hkey, hiniA, hiniB, hmint, hle,
            ⟨_, Account.unpack_unchecked_pack _ ?_ _ (mkAcctInfo_data_length kA A hvA),
              ?_, ?_⟩,
            ⟨_, Account.unpack_unchecked_pack _ ?_ _ (mkAcctInfo_data_length kB B hvB),
              ?_, ?_⟩⟩
          · obtain ⟨v1, v2, v3, v4, v5, v6⟩ := hvA
            refine ⟨hvB.1, ?_, ?_, v4, trivial, v6⟩
            · show authority.key.length = 32
              rw [← hown]
              exact v2
            · show A.amount - amount < 2 ^ 64
              omega
          · show A.amount - amount + amount = A.amount
            omega
          · rfl
          · obtain ⟨w1, w2, w3, w4, w5, w6⟩ := hvB
            exact ⟨w1, w2, by show B.amount + amount < 2 ^ 64; omega, w4, w5, w6⟩
          · show B.amount + amount = B.amount + amount
            rfl
          · rfl
    | some d =>
      by_cases hd : d = authority.key
      case neg =>
        by_cases hown : A.owner = authority.key
        case neg =>
          simp [process_transfer, hc1, hc2, hw1, hw2, hupA, hupB, hk1, hk2, hiniA,
            hiniB, hfzA, hfzB, hmint, hkey, hdel, hd, hown] at hrun
        case pos =>
        by_cases hsig : authority.is_signer = true
        case neg =>
          rw [Bool.not_eq_true] at hsig
          simp [process_transfer, hc1, hc2, hw1, hw2, hupA, hupB, hk1, hk2, hiniA,
            hiniB, hfzA, hfzB, hmint, hkey, hdel, hd, hown, hsig] at hrun
        case pos =>
        by_cases hbal : A.amount < amount
        case pos =>
          simp [process_transfer, hc1, hc2, hw1, hw2, hupA, hupB, hk1, hk2, hiniA, hiniB,
            hfzA, hfzB, hmint, hkey, hdel, hd, hown, hsig, hbal] at hrun
        case neg =>
          have hle : amount ≤ A.amount := Nat.le_of_not_lt hbal
          have hsub : checked_sub A.amount amount = some (A.amount - amount) := by
            unfold checked_sub
            rw [if_pos hle]
          by_cases hovf : B.amount + amount < 2 ^ 64
          case neg =>
            have hadd : checked_add B.amount amount = none := by
              unfold checked_add
              rw [if_neg hovf]
            simp [process_transfer, hc1, hc2, hw1, hw2, hupA, hupB, hk1, hk2, hiniA, hiniB,
              hfzA, hfzB, hmint, hkey, hdel, hd, hown, hsig, hbal, hsub, hadd] at hrun
          case pos =>
            have hadd : checked_add B.amount amount = some (B.amount + amount) := by
              unfold checked_add
              rw [if_pos hovf]
            simp [process_transfer, hc1, hc2, hw1, hw2, hupA, hupB, hk1, hk2, hiniA, hiniB,
              hfzA, hfzB, hmint, hkey, hdel, hd, hown, hsig, hbal, hsub, hadd, hpkA, hpkB] at hrun
            obtain ⟨h1, h2⟩ := hrun
            subst h1
            subst h2
            refine Or.inr ⟨hkey, hiniA, hiniB, hmint, hle,
              ⟨_, Account.unpack_unchecked_pack _ ?_ _ (mkAcctInfo_data_length kA A hvA),
                ?_, ?_⟩,
              ⟨_, Account.unpack_unchecked_pack _ ?_ _ (mkAcctInfo_data_length kB B hvB),
                ?_, ?_⟩⟩
            · obtain ⟨v1, v2, v3, v4, v5, v6⟩ := hvA
              refine ⟨hvB.1, ?_, ?_, v4, ?_, v6⟩
              · show authority.key.length = 32
                rw [← hown]
                exact v2
              · show A.amount - amount < 2 ^ 64
                omega
              · show optKeyValid (some d)
                rw [hdel] at v5
                exact v5
            · show A.amount - amount + amount = A.amount
              omega
            · rfl
            · obtain ⟨w1, w2, w3, w4, w5, w6⟩ := hvB
              exact ⟨w1, w2, by show B.amount + amount < 2 ^ 64; omega, w4, w5, w6⟩
            · show B.amount + amount = B.amount + amount
              rfl
            · rfl
      case pos =>
        by_cases hsig : authority.is_signer = true
        case neg =>
          rw [Bool.not_eq_true] at hsig
          simp [process_transfer, hc1, hc2, hw1, hw2, hupA, hupB, hk1, hk2, hiniA,
            hiniB, hfzA, hfzB, hmint, hkey, hdel, hd, hsig] at hrun
        case pos =>
        by_cases hdla : A.delegated_amount < amount
        case pos =>
          simp [process_transfer, hc1, hc2, hw1, hw2, hupA, hupB, hk1, hk2, hiniA,
            hiniB, hfzA, hfzB, hmint, hkey, hdel, hd, hsig, hdla] at hrun
        case neg =>
          have hsubd : checked_sub A.delegated_amount amount
              = some (A.delegated_amount - amount) := by
            unfold checked_sub
            rw [if_pos (Nat.le_of_not_lt hdla)]
          by_cases hbal : A.amount < amount
          case pos =>
            simp [process_transfer, hc1, hc2, hw1, hw2, hupA, hupB, hk1, hk2, hiniA,
              hiniB, hfzA, hfzB, hmint, hkey, hdel, hd, hsig, hdla, hsubd, hbal] at hrun
          case neg =>
            have hle : amount ≤ A.amount := Nat.le_of_not_lt hbal
            have hsub : checked_sub A.amount amount = some (A.amount - amount) := by
              unfold checked_sub
              rw [if_pos hle]
            by_cases hovf : B.amount + amount < 2 ^ 64
            case neg =>
              have hadd : checked_add B.amount amount = none := by
                unfold checked_add
                rw [if_neg hovf]
              simp [process_transfer, hc1, hc2, hw1, hw2, hupA, hupB, hk1, hk2, hiniA,
                hiniB, hfzA, hfzB, hmint, hkey, hdel, hd, hsig, hdla, hsubd, hbal,
                hsub, hadd] at hrun
            case pos =>
              have hadd : checked_add B.amount amount = some (B.amount + amount) := by
                unfold checked_add
                rw [if_pos hovf]
              simp [process_transfer, hc1, hc2, hw1, hw2, hupA, hupB, hk1, hk2, hiniA,
                hiniB, hfzA, hfzB, hmint, hkey, hdel, hd, hsig, hdla, hsubd, hbal,
                hsub, hadd, hpkA, hpkB] at hrun
              obtain ⟨h1, h2⟩ := hrun
              subst h1
              subst h2
              refine Or.inr ⟨hkey, hiniA, hiniB, hmint, hle,
                ⟨_, Account.unpack_unchecked_pack _ ?_ _
                    (mkAcctInfo_data_length kA A hvA), ?_, ?_⟩,
                ⟨_, Account.unpack_unchecked_pack _ ?_ _
                    (mkAcctInfo_data_length kB B hvB), ?_, ?_⟩⟩
              · obtain ⟨v1, v2, v3, v4, v5, v6⟩ := hvA
                refine ⟨hvB.1, v2, by show A.amount - amount < 2 ^ 64; omega, v4, ?_, ?_⟩
                · show optKeyValid (if A.delegated_amount - amount = 0 then none
                    else some authority.key)
                  split
                  · trivial
                  · show authority.key.length = 32
                    rw [hdel, hd] at v5
                    exact v5
                · show A.delegated_amount - amount < 2 ^ 64
                  omega
              · show A.amount - amount + amount = A.amount
                omega
              · rfl
              · obtain ⟨w1, w2, w3, w4, w5, w6⟩ := hvB
                exact ⟨w1, w2, by show B.amount + amount < 2 ^ 64; omega, w4, w5, w6⟩
              · show B.amount + amount = B.amount + amount
                rfl
              · rfl

set_option maxHeartbeats 1000000 in
/-- Inversion of a successful mint-to on freshly packed, well-typed inputs: the
destination belongs to the mint and both output buffers decode to records with
supply and balance each increased by the minted amount. -/
theorem process_mint_to_inversion (mk kB : Pubkey) (m : Mint) (B : Account)
    (authority : AccountInfo) (amount : Nat) (mi' d' : AccountInfo)
    (hvm : m.Valid) (hvB : B.Valid)
    (hrun : process_mint_to (mkMintInfo mk m) (mkAcctInfo kB B) authority amount
      = .ok (mi', d')) :
    B.is_initialized = true ∧ B.mint = mk ∧
    (∃ m', Mint.unpack_unchecked mi'.data = .ok m' ∧
       m'.supply = m.supply + amount ∧ m'.is_initialized = true) ∧
    (∃ B', Account.unpack_unchecked d'.data = .ok B' ∧
       B'.amount = B.amount + amount ∧ B'.is_initialized = true) := by
  have hc1 := check_program_account_mkMintInfo mk m
  have hc2 := check_program_account_mkAcctInfo kB B
  have hw1 : (mkMintInfo mk m).is_writable = true := rfl
  have hw2 : (mkAcctInfo kB B).is_writable = true := rfl
  have hk1 : (mkMintInfo mk m).key = mk := rfl
  have hpkM : ∀ x : Mint, Mint.pack x (mkMintInfo mk m).data
      = .ok (Mint.pack_into_slice x (mkMintInfo mk m).data) := by
    intro x
    unfold Mint.pack
    rw [if_pos (show (mkMintInfo mk m).data.length = Mint.LEN from
          mkMintInfo_data_length mk m hvm)]
  have hpkB : ∀ x : Account, Account.pack x (mkAcctInfo kB B).data
      = .ok (Account.pack_into_slice x (mkAcctInfo kB B).data) := by
    intro x
    unfold Account.pack
    rw [if_pos (show (mkAcctInfo kB B).data.length = Account.LEN from
          mkAcctInfo_data_length kB B hvB)]
  by_cases hinim : m.is_initialized = true
  case neg =>
    rw [Bool.not_eq_true] at hinim
    have hupM := Mint.unpack_mkMintInfo_uninit mk m hvm hinim
    simp [process_mint_to, hc1, hc2, hw1, hw2, hupM] at hrun
  case pos =>
  have hupM := Mint.unpack_mkMintInfo mk m hvm hinim
  cases hma : m.mint_authority with
  | none =>
    simp [process_mint_to, hc1, hc2, hw1, hw2, hupM, hinim, hma] at hrun
  | some auth =>
    by_cases hauth : auth = authority.key
    case neg =>
      simp [process_mint_to, hc1, hc2, hw1, hw2, hupM, hinim, hma, hauth] at hrun
    case pos =>
    by_cases hsig : authority.is_signer = true
    case neg =>
      rw [Bool.not_eq_true] at hsig
      simp [process_mint_to, hc1, hc2, hw1, hw2, hupM, hinim, hma, hauth, hsig] at hrun
    case pos =>
    by_cases hiniB : B.is_initialized = true
    case neg =>
      rw [Bool.not_eq_true] at hiniB
      have hupB := Account.unpack_mkAcctInfo_uninit kB B hvB hiniB
      simp [process_mint_to, hc1, hc2, hw1, hw2, hupM, hinim, hma, hauth, hsig,
        hupB] at hrun
    case pos =>
    have hupB := Account.unpack_mkAcctInfo kB B hvB hiniB
    by_cases hBm : B.mint = mk
    case neg =>
      simp [process_mint_to, hc1, hc2, hw1, hw2, hupM, hinim, hma, hauth, hsig, hupB,
        hiniB, hk1, hBm] at hrun
    case pos =>
    by_cases hovfS : m.supply + amount < 2 ^ 64
    case neg =>
      have haddS : checked_add m.supply amount = none := by
        unfold checked_add
        rw [if_neg hovfS]
      simp [process_mint_to, hc1, hc2, hw1, hw2, hupM, hinim, hma, hauth, hsig, hupB,
        hiniB, hk1, hBm, haddS] at hrun
    case pos =>
    have haddS : checked_add m.supply amount = some (m.supply + amount) := by
      unfold checked_add
      rw [if_pos hovfS]
    by_cases hovfB : B.amount + amount < 2 ^ 64
    case neg =>
      have haddB : checked_add B.amount amount = none := by
        unfold checked_add
        rw [if_neg hovfB]
      simp [process_mint_to, hc1, hc2, hw1, hw2, hupM, hinim, hma, hauth, hsig, hupB,
        hiniB, hk1, hBm, haddS, haddB] at hrun
    case pos =>
    have haddB : checked_add B.amount amount = some (B.amount + amount) := by
      unfold checked_add
      rw [if_pos hovfB]
    simp [process_mint_to, hc1, hc2, hw1, hw2, hupM, hinim, hma, hauth, hsig, hupB,
      hiniB, hk1, hBm, haddS, haddB, hpkM, hpkB] at hrun
    obtain ⟨h1, h2⟩ := hrun
    subst h1
    subst h2
    refine ⟨hiniB, hBm,
      ⟨_, Mint.unpack_unchecked_pack_mint _ ?_ _ (mkMintInfo_data_length mk m hvm),
        ?_, ?_⟩,
      ⟨_, Account.unpack_unchecked_pack _ ?_ _ (mkAcctInfo_data_length kB B hvB),
        ?_, ?_⟩⟩
    · obtain ⟨u1, u2, u3⟩ := hvm
      refine ⟨?_, ?_, u3⟩
      · show optKeyValid (some authority.key)
        rw [hma, hauth] at u1
        exact u1
      · show m.supply + amount < 2 ^ 64
        omega
    · show m.supply + amount = m.supply + amount
      rfl
    · rfl
    · obtain ⟨w1, w2, w3, w4, w5, w6⟩ := hvB
      refine ⟨?_, w2, by show B.amount + amount < 2 ^ 64; omega, w4, w5, w6⟩
      show mk.length = 32
      rw [← hBm]
      exact w1
    · show B.amount + amount = B.amount + amount
      rfl
    · rfl

set_option maxHeartbeats 1000000 in
/-- Inversion of a successful burn on freshly packed, well-typed inputs: the
account belongs to the mint and both output buffers decode to records with
balance and supply each decreased by the burnt amount. -/
theorem process_burn_inversion (kA mk : Pubkey) (A : Account) (m : Mint)
    (authority : AccountInfo) (amount : Nat) (ai' mi' : AccountInfo)
    (hvA : A.Valid) (hvm : m.Valid)
    (hrun : process_burn (mkAcctInfo kA A) (mkMintInfo mk m) authority amount
      = .ok (ai', mi')) :
    A.is_initialized = true ∧ A.mint = mk ∧ amount ≤ A.amount ∧ amount ≤ m.supply ∧
    (∃ A', Account.unpack_unchecked ai'.data = .ok A' ∧
       A'.amount + amount = A.amount ∧ A'.is_initialized = true) ∧
    (∃ m', Mint.unpack_unchecked mi'.data = .ok m' ∧
       m'.supply + amount = m.supply) := by
  have hc1 := check_program_account_mkAcctInfo kA A
  have hc2 := check_program_account_mkMintInfo mk m
  have hw1 : (mkAcctInfo kA A).is_writable = true := rfl
  have hw2 : (mkMintInfo mk m).is_writable = true := rfl
  have hk2 : (mkMintInfo mk m).key = mk := rfl
  have hpkA : ∀ x : Account, Account.pack x (mkAcctInfo kA A).data
      = .ok (Account.pack_into_slice x (mkAcctInfo kA A).data) := by
    intro x
    unfold Account.pack
    rw [if_pos (show (mkAcctInfo kA A).data.length = Account.LEN from
          mkAcctInfo_data_length kA A hvA)]
  have hpkM : ∀ x : Mint, Mint.pack x (mkMintInfo mk m).data
      = .ok (Mint.pack_into_slice x (mkMintInfo mk m).data) := by
    intro x
    unfold Mint.pack
    rw [if_pos (show (mkMintInfo mk m).data.length = Mint.LEN from
          mkMintInfo_data_length mk m hvm)]
  by_cases hiniA : A.is_initialized = true
  case neg =>
    rw [Bool.not_eq_true] at hiniA
    have hupA := Account.unpack_mkAcctInfo_uninit kA A hvA hiniA
    simp [process_burn, hc1, hc2, hw1, hw2, hupA] at hrun
  case pos =>
  have hupA := Account.unpack_mkAcctInfo kA A hvA hiniA
  by_cases hfzA : A.is_frozen = true
  case pos =>
    simp [process_burn, hc1, hc2, hw1, hw2, hupA, hiniA, hfzA] at hrun
  case neg =>
  rw [Bool.not_eq_true] at hfzA
  by_cases hinim : m.is_initialized = true
  case neg =>
    rw [Bool.not_eq_true] at hinim
    have hupM := Mint.unpack_mkMintInfo_uninit mk m hvm hinim
    simp [process_burn, hc1, hc2, hw1, hw2, hupA, hiniA, hfzA, hupM] at hrun
  case pos =>
  have hupM := Mint.unpack_mkMintInfo mk m hvm hinim
  by_cases hAm : A.mint = mk
  case neg =>
    simp [process_burn, hc1, hc2, hw1, hw2, hupA, hiniA, hfzA, hupM, hinim, hk2,
      hAm] at hrun
  case pos =>
  by_cases hown : A.owner = authority.key
  case neg =>
    simp [process_burn, hc1, hc2, hw1, hw2, hupA, hiniA, hfzA, hupM, hinim, hk2,
      hAm, hown] at hrun
  case pos =>
  by_cases hsig : authority.is_signer = true
  case neg =>
    rw [Bool.not_eq_true] at hsig
    simp [process_burn, hc1, hc2, hw1, hw2, hupA, hiniA, hfzA, hupM, hinim, hk2,
      hAm, hown, hsig] at hrun
  case pos =>
  by_cases hbal : A.amount < amount
  case pos =>
    simp [process_burn, hc1, hc2, hw1, hw2, hupA, hiniA, hfzA, hupM, hinim, hk2,
      hAm, hown, hsig, hbal] at hrun
  case neg =>
  have hle : amount ≤ A.amount := Nat.le_of_not_lt hbal
  have hsubA : checked_sub A.amount amount = some (A.amount - amount) := by
    unfold checked_sub
    rw [if_pos hle]
  by_cases hsle : amount ≤ m.supply
  case neg =>
    have hsubS : checked_sub m.supply amount = none := by
      unfold checked_sub
      rw [if_neg hsle]
    simp [process_burn, hc1, hc2, hw1, hw2, hupA, hiniA, hfzA, hupM, hinim, hk2,
      hAm, hown, hsig, hbal, hsubA, hsubS] at hrun
  case pos =>
  have hsubS : checked_sub m.supply amount = some (m.supply - amount) := by
    unfold checked_sub
    rw [if_pos hsle]
  simp [process_burn, hc1, hc2, hw1, hw2, hupA, hiniA, hfzA, hupM, hinim, hk2,
    hAm, hown, hsig, hbal, hsubA, hsubS, hpkA, hpkM] at hrun
  obtain ⟨h1, h2⟩ := hrun
  subst h1
  subst h2
  refine ⟨hiniA, hAm, hle, hsle,
    ⟨_, Account.unpack_unchecked_pack _ ?_ _ (mkAcctInfo_data_length kA A hvA),
      ?_, ?_⟩,
    ⟨_, Mint.unpack_unchecked_pack_mint _ ?_ _ (mkMintInfo_data_length mk m hvm), ?_⟩⟩
  · obtain ⟨v1, v2, v3, v4, v5, v6⟩ := hvA
    refine ⟨?_, ?_, by show A.amount - amount < 2 ^ 64; omega, v4, v5, v6⟩
    · show mk.length = 32
      rw [← hAm]
      exact v1
    · show authority.key.length = 32
      rw [← hown]
      exact v2
  · show A.amount - amount + amount = A.amount
    omega
  · rfl
  · obtain ⟨u1, u2, u3⟩ := hvm
    exact ⟨u1, by show m.supply - amount < 2 ^ 64; omega, u3⟩
  · show m.supply - amount + amount = m.supply
    omega

theorem Account.unpack_unchecked_mkAcctInfo (k : Pubkey) (a : Account) (hv : a.Valid) :
    Account.unpack_unchecked (mkAcctInfo k a).data = .ok a := by
  show Account.unpack_unchecked (Account.pack_into_slice a (List.replicate 181 0))
    = .ok a
  exact Account.unpack_unchecked_pack a hv (List.replicate 181 0)
    (List.length_replicate 181 0)

theorem Mint.unpack_unchecked_mkMintInfo (k : Pubkey) (m : Mint) (hv : m.Valid) :
    Mint.unpack_unchecked (mkMintInfo k m).data = .ok m := by
  show Mint.unpack_unchecked (Mint.pack_into_slice m (List.replicate 82 0)) = .ok m
  exact Mint.unpack_unchecked_pack_mint m hv (List.replicate 82 0)
    (List.length_replicate 82 0)

/-- Replacing the i-th ledger entry shifts the conservation sum by the difference
of contributions. -/
theorem sumAmounts_set (l : List (Pubkey × Account)) (i : Nat) (hi : i < l.length)
    (x : Pubkey × Account) :
    sumAmounts (l.set i x) + contribution (l.get ⟨i, hi⟩)
      = sumAmounts l + contribution x := by
  induction l generalizing i with
  | nil => exact absurd hi (Nat.not_lt_zero i)
  | cons a t ih =>
    cases i with
    | zero =>
      show sumAmounts (x :: t) + contribution a = sumAmounts (a :: t) + contribution x
      simp [sumAmounts]
      omega
    | succ n =>
      have hn : n < t.length := Nat.lt_of_succ_lt_succ hi
      have hrec := ih n hn
      show sumAmounts (a :: t.set n x) + contribution (t.get ⟨n, hn⟩)
        = sumAmounts (a :: t) + contribution x
      simp [sumAmounts] at hrec ⊢
      omega

/-- One bank step keeps the ledger well typed and preserves supply = Σ amount over
initialized accounts. -/
theorem bankStep_preserves (mintKey : Pubkey) (s t : Mint × List (Pubkey × Account))
    (hstep : BankStep mintKey s t) (hwf : BankWF s)
    (hsum : s.1.supply = sumAmounts s.2) :
    BankWF t ∧ t.1.supply = sumAmounts t.2 := by
  cases hstep with
  | transfer m l i j hi hj authority amount s' d' A' B' hrun hA hB =>
    obtain ⟨hvm, hvl⟩ := hwf
    have hsum' : m.supply = sumAmounts l := hsum
    have hvAi : (l.get ⟨i, hi⟩).2.Valid := hvl _ (List.get_mem l i hi)
    have hvBj : (l.get ⟨j, hj⟩).2.Valid := hvl _ (List.get_mem l j hj)
    have hvA' : A'.Valid := Account.valid_of_unpack_unchecked _ _ hA
    have hvB' : B'.Valid := Account.valid_of_unpack_unchecked _ _ hB
    have hj' : j < (l.set i ((l.get ⟨i, hi⟩).1, A')).length := by simpa using hj
    have hwf' : BankWF (m, (l.set i ((l.get ⟨i, hi⟩).1, A')).set j
        ((l.get ⟨j, hj⟩).1, B')) := by
      refine ⟨hvm, ?_⟩
      intro p hp
      rcases List.mem_or_eq_of_mem_set hp with hp' | rfl
      · rcases List.mem_or_eq_of_mem_set hp' with hp'' | rfl
        · exact hvl _ hp''
        · exact hvA'
      · exact hvB'
    refine ⟨hwf', ?_⟩
    have h1 := sumAmounts_set l i hi ((l.get ⟨i, hi⟩).1, A')
    have h2 := sumAmounts_set (l.set i ((l.get ⟨i, hi⟩).1, A')) j hj'
      ((l.get ⟨j, hj⟩).1, B')
    rcases process_transfer_inversion _ _ _ _ authority amount s' d' hvAi hvBj hrun with
      ⟨hkk, hs', hd'⟩ |
      ⟨hne, hiniA, hiniB, hmint, hle, ⟨A2, hA2, hA2amt, hA2ini⟩,
        ⟨B2, hB2, hB2amt, hB2ini⟩⟩
    · -- self transfer: both records decode to the originals, sum unchanged
      rw [hs', Account.unpack_unchecked_mkAcctInfo _ _ hvAi] at hA
      injection hA with hA'eq
      rw [hd', Account.unpack_unchecked_mkAcctInfo _ _ hvBj] at hB
      injection hB with hB'eq
      have hcx : contribution ((l.get ⟨i, hi⟩).1, A')
          = contribution (l.get ⟨i, hi⟩) := by
        simp only [contribution, ← hA'eq]
      have hcy : contribution ((l.get ⟨j, hj⟩).1, B')
          = contribution (l.get ⟨j, hj⟩) := by
        simp only [contribution, ← hB'eq]
      have hgetc : contribution ((l.set i ((l.get ⟨i, hi⟩).1, A')).get ⟨j, hj'⟩)
          = contribution (l.get ⟨j, hj⟩) := by
        by_cases hij : i = j
        · subst hij
          have hself : (l.set i ((l.get ⟨i, hi⟩).1, A')).get ⟨i, hj'⟩
              = ((l.get ⟨i, hi⟩).1, A') := List.getElem_set_self hj'
          rw [hself]
          exact hcx
        · have hswap : (l.set i ((l.get ⟨i, hi⟩).1, A')).get ⟨j, hj'⟩
              = l.get ⟨j, hj⟩ := List.getElem_set_ne hij hj'
          rw [hswap]
      rw [hgetc] at h2
      show m.supply = sumAmounts ((l.set i ((l.get ⟨i, hi⟩).1, A')).set j
        ((l.get ⟨j, hj⟩).1, B'))
      omega
    · -- genuine move
      rw [hA] at hA2
      injection hA2 with hA'eq
      subst hA'eq
      rw [hB] at hB2
      injection hB2 with hB'eq
      subst hB'eq
      have hij : i ≠ j := by
        intro h
        subst h
        exact hne rfl
      have hcx : contribution ((l.get ⟨i, hi⟩).1, A') = A'.amount := by
        simp [contribution, hA2ini]
      have hcy : contribution ((l.get ⟨j, hj⟩).1, B') = B'.amount := by
        simp [contribution, hB2ini]
      have hci : contribution (l.get ⟨i, hi⟩) = (l.get ⟨i, hi⟩).2.amount := by
        unfold contribution
        rw [if_pos hiniA]
      have hcj : contribution (l.get ⟨j, hj⟩) = (l.get ⟨j, hj⟩).2.amount := by
        unfold contribution
        rw [if_pos hiniB]
      have hgetc : contribution ((l.set i ((l.get ⟨i, hi⟩).1, A')).get ⟨j, hj'⟩)
          = contribution (l.get ⟨j, hj⟩) := by
        have hswap : (l.set i ((l.get ⟨i, hi⟩).1, A')).get ⟨j, hj'⟩
            = l.get ⟨j, hj⟩ := List.getElem_set_ne hij hj'
        rw [hswap]
      rw [hgetc] at h2
      show m.supply = sumAmounts ((l.set i ((l.get ⟨i, hi⟩).1, A')).set j
        ((l.get ⟨j, hj⟩).1, B'))
      omega
  | mintTo m l j hj authority amount mi' d' m' B' hrun hm hB =>
    obtain ⟨hvm, hvl⟩ := hwf
    have hsum' : m.supply = sumAmounts l := hsum
    have hvBj : (l.get ⟨j, hj⟩).2.Valid := hvl _ (List.get_mem l j hj)
    have hvm' : m'.Valid := Mint.valid_of_unpack_unchecked_mint _ _ hm
    have hvB' : B'.Valid := Account.valid_of_unpack_unchecked _ _ hB
    obtain ⟨hiniB, hBm, ⟨m2, hm2, hm2sup, hm2ini⟩, ⟨B2, hB2, hB2amt, hB2ini⟩⟩ :=
      process_mint_to_inversion mintKey _ m _ authority amount mi' d' hvm hvBj hrun
    rw [hm] at hm2
    injection hm2 with hm'eq
    subst hm'eq
    rw [hB] at hB2
    injection hB2 with hB'eq
    subst hB'eq
    refine ⟨⟨hvm', ?_⟩, ?_⟩
    · intro p hp
      rcases List.mem_or_eq_of_mem_set hp with hp' | rfl
      · exact hvl _ hp'
      · exact hvB'
    · have h1 := sumAmounts_set l j hj ((l.get ⟨j, hj⟩).1, B')
      have hcy : contribution ((l.get ⟨j, hj⟩).1, B') = B'.amount := by
        simp [contribution, hB2ini]
      have hcj : contribution (l.get ⟨j, hj⟩) = (l.get ⟨j, hj⟩).2.amount := by
        unfold contribution
        rw [if_pos hiniB]
      show m'.supply = sumAmounts (l.set j ((l.get ⟨j, hj⟩).1, B'))
      omega
  | burn m l i hi authority amount ai' mi' m' A' hrun hA hm =>
    obtain ⟨hvm, hvl⟩ := hwf
    have hsum' : m.supply = sumAmounts l := hsum
    have hvAi : (l.get ⟨i, hi⟩).2.Valid := hvl _ (List.get_mem l i hi)
    have hvm' : m'.Valid := Mint.valid_of_unpack_unchecked_mint _ _ hm
    have hvA' : A'.Valid := Account.valid_of_unpack_unchecked _ _ hA
    obtain ⟨hiniA, hAm, hle, hsle, ⟨A2, hA2, hA2amt, hA2ini⟩, ⟨m2, hm2, hm2sup⟩⟩ :=
      process_burn_inversion _ mintKey _ m authority amount ai' mi' hvAi hvm hrun
    rw [hA] at hA2
    injection hA2 with hA'eq
    subst hA'eq
    rw [hm] at hm2
    injection hm2 with hm'eq
    subst hm'eq
    refine ⟨⟨hvm', ?_⟩, ?_⟩
    · intro p hp
      rcases List.mem_or_eq_of_mem_set hp with hp' | rfl
      · exact hvl _ hp'
      · exact hvA'
    · have h1 := sumAmounts_set l i hi ((l.get ⟨i, hi⟩).1, A')
      have hcx : contribution ((l.get ⟨i, hi⟩).1, A') = A'.amount := by
        simp [contribution, hA2ini]
      have hci : contribution (l.get ⟨i, hi⟩) = (l.get ⟨i, hi⟩).2.amount := by
        unfold contribution
        rw [if_pos hiniA]
      show m'.supply = sumAmounts (l.set i ((l.get ⟨i, hi⟩).1, A'))
      omega

/-- C1: a successful MintTo adds the minted amount to both the mint's supply and
the destination's balance, a successful Burn subtracts the burnt amount from both
the source's balance and the supply, a successful Transfer moves the amount
between two accounts of one mint (or is a self-transfer no-op); hence along any
sequence of successful Transfer/MintTo/Burn bank steps starting from a ledger
where supply equals the sum of balances over initialized accounts, supply =
Σ amount holds after every step. -/
theorem C1_supply_conservation :
    (∀ (mk kB : Pubkey) (m : Mint) (B : Account) (authority : AccountInfo)
       (amount : Nat) (mi' d' : AccountInfo) (m' : Mint) (B' : Account),
       m.Valid → B.Valid →
       process_mint_to (mkMintInfo mk m) (mkAcctInfo kB B) authority amount
         = .ok (mi', d') →
       Mint.unpack_unchecked mi'.data = .ok m' →
       Account.unpack_unchecked d'.data = .ok B' →
       m'.supply = m.supply + amount ∧ B'.amount = B.amount + amount) ∧
    (∀ (kA mk : Pubkey) (A : Account) (m : Mint) (authority : AccountInfo)
       (amount : Nat) (ai' mi' : AccountInfo) (A' : Account) (m' : Mint),
       A.Valid → m.Valid →
       process_burn (mkAcctInfo kA A) (mkMintInfo mk m) authority amount
         = .ok (ai', mi') →
       Account.unpack_unchecked ai'.data = .ok A' →
       Mint.unpack_unchecked mi'.data = .ok m' →
       A'.amount + amount = A.amount ∧ m'.supply + amount = m.supply) ∧
    (∀ (kA kB : Pubkey) (A B : Account) (authority : AccountInfo)
       (amount : Nat) (s' d' : AccountInfo) (A' B' : Account),
       A.Valid → B.Valid →
       process_transfer (mkAcctInfo kA A) (mkAcctInfo kB B) authority amount
         = .ok (s', d') →
       Account.unpack_unchecked s'.data = .ok A' →
       Account.unpack_unchecked d'.data = .ok B' →
       (kA = kB ∧ A' = A ∧ B' = B) ∨
       (A.mint = B.mint ∧ A'.amount + amount = A.amount ∧
        B'.amount = B.amount + amount)) ∧
    (∀ (mintKey : Pubkey) (s₀ s : Mint × List (Pubkey × Account)),
       BankWF s₀ → s₀.1.supply = sumAmounts s₀.2 →
       Relation.ReflTransGen (BankStep mintKey) s₀ s →
       s.1.supply = sumAmounts s.2) := by
  refine ⟨?_, ?_, ?_, ?_⟩
  · intro mk kB m B authority amount mi' d' m' B' hvm hvB hrun hm hB
    obtain ⟨_, _, ⟨m2, hm2, hsup, _⟩, ⟨B2, hB2, hamt, _⟩⟩ :=
      process_mint_to_inversion mk kB m B authority amount mi' d' hvm hvB hrun
    rw [hm] at hm2
    injection hm2 with e1
    subst e1
    rw [hB] at hB2
    injection hB2 with e2
    subst e2
    exact ⟨hsup, hamt⟩
  · intro kA mk A m authority amount ai' mi' A' m' hvA hvm hrun hA hm
    obtain ⟨_, _, _, _, ⟨A2, hA2, hamt, _⟩, ⟨m2, hm2, hsup⟩⟩ :=
      process_burn_inversion kA mk A m authority amount ai' mi' hvA hvm hrun
    rw [hA] at hA2
    injection hA2 with e1
    subst e1
    rw [hm] at hm2
    injection hm2 with e2
    subst e2
    exact ⟨hamt, hsup⟩
  · intro kA kB A B authority amount s' d' A' B' hvA hvB hrun hA hB
    rcases process_transfer_inversion kA kB A B authority amount s' d' hvA hvB hrun
      with ⟨hkk, hs', hd'⟩ |
        ⟨_, _, _, hmint, _, ⟨A2, hA2, hAamt, _⟩, ⟨B2, hB2, hBamt, _⟩⟩
    · rw [hs', Account.unpack_unchecked_mkAcctInfo _ _ hvA] at hA
      injection hA with e1
      rw [hd', Account.unpack_unchecked_mkAcctInfo _ _ hvB] at hB
      injection hB with e2
      exact Or.inl ⟨hkk, e1.symm, e2.symm⟩
    · rw [hA] at hA2
      injection hA2 with e1
      subst e1
      rw [hB] at hB2
      injection hB2 with e2
      subst e2
      exact Or.inr ⟨hmint, hAamt, hBamt⟩
  · intro mintKey s₀ s hwf hsum hreach
    have hinv : BankWF s ∧ s.1.supply = sumAmounts s.2 := by
      induction hreach with
      | refl => exact ⟨hwf, hsum⟩
      | tail _ hbc ih => exact bankStep_preserves _ _ _ hbc ih.1 ih.2
    exact hinv.2
